import Mathlib

/-!
Verification of the `true` relay server (relay/server.ts) against its
natural-language specification.  The relay state (room registry, per-room
member maps, message backlog, ws-to-room tracking, rate windows) and every
request handler are shallowly embedded as pure Lean functions; JavaScript
`Map`s and `Set`s become insertion-ordered association lists, the fresh
identifiers minted by the CSPRNG and the wall clock become explicit
parameters, and each handler returns the successor state together with the
ordered list of outputs (push events addressed to a connection, or the HTTP
response to the originating caller).
-/

/-- MAX_ROOM_TTL from src/lib/constants.ts (seconds). -/
def MAX_ROOM_TTL : Int := 86400

/-- MESSAGE_BUFFER_SIZE from src/lib/constants.ts (backlog cap). -/
def MESSAGE_BUFFER_SIZE : Nat := 200

/-- MAX_ROOMS from src/lib/constants.ts. -/
def MAX_ROOMS : Nat := 10000

/-- MAX_PEERS_PER_ROOM from src/lib/constants.ts. -/
def MAX_PEERS_PER_ROOM : Nat := 50

/-- HTTP_PEER_TIMEOUT from src/lib/constants.ts (ms). -/
def HTTP_PEER_TIMEOUT : Int := 120000

/-- RATE_LIMIT_WINDOW from src/lib/constants.ts (ms). -/
def RATE_LIMIT_WINDOW : Int := 60000

/-- RATE_LIMIT_CREATE from src/lib/constants.ts. -/
def RATE_LIMIT_CREATE : Nat := 5

/-- RATE_LIMIT_JOIN from src/lib/constants.ts. -/
def RATE_LIMIT_JOIN : Nat := 20

/-- RATE_LIMIT_MESSAGE from src/lib/constants.ts. -/
def RATE_LIMIT_MESSAGE : Nat := 60

/-- A structurally validated envelope (protocol type `Envelope`).  The
`from` field is spelled `from_` because `from` is a Lean keyword. -/
structure Envelope where
  room : String
  from_ : String
  payload : String
  nonce : String
  ts : Int
deriving DecidableEq

/-- A client-supplied envelope before validation: each field is `none` when
absent or not of the required JSON type (the `typeof` checks of
`validateEnvelope` treat both identically). -/
structure RawEnvelope where
  room : Option String
  from_ : Option String
  payload : Option String
  nonce : Option String
  ts : Option Int
deriving DecidableEq

/-- validateEnvelope (relay/server.ts:171-184): all five fields present and
of the right type, `room`/`payload`/`nonce` non-empty; the outer `none`
models a value that is not an object.  Note the source does not require
`from` to be non-empty.  Returns the validated envelope. -/
def validateEnvelope : Option RawEnvelope → Option Envelope
  | none => none
  | some e =>
    match e.room, e.from_, e.payload, e.nonce, e.ts with
    | some room, some f, some payload, some nonce, some ts =>
      if room.length > 0 ∧ payload.length > 0 ∧ nonce.length > 0 then
        some ⟨room, f, payload, nonce, ts⟩
      else none
    | _, _, _, _, _ => none

/-- A room (relay/server.ts:42-50).  `peers` maps a minted peer id to the
number identifying its push connection (`ws`); `httpPeers` maps a minted
peer id to the last-seen timestamp.  Both keep JavaScript `Map` insertion
order. -/
structure Room where
  hash : String
  peers : List (String × Nat)
  httpPeers : List (String × Int)
  messageBuffer : List Envelope
  deleteToken : String
  createdAt : Int
  ttl : Int
deriving DecidableEq

/-- A rate window (relay/server.ts:52-57). -/
structure RateWindow where
  creates : Nat
  joins : Nat
  messages : Nat
  windowStart : Int
deriving DecidableEq

/-- The module-level mutable registries of relay/server.ts:59-62 gathered
into one state value (`wsToIp` is not modelled: the client ip reaches each
handler as an explicit argument). -/
structure RelayState where
  rooms : List (String × Room)
  wsToRooms : List (Nat × List String)
  rateLimits : List (String × RateWindow)
deriving DecidableEq

/-- Lookup in an insertion-ordered association list (JavaScript `Map.get`). -/
def lookupA {α β : Type} [DecidableEq α] : List (α × β) → α → Option β
  | [], _ => none
  | (k', v) :: rest, k => if k' = k then some v else lookupA rest k

/-- `Map.set`: replace in place when the key is present, append otherwise. -/
def setA {α β : Type} [DecidableEq α] : List (α × β) → α → β → List (α × β)
  | [], k, v => [(k, v)]
  | (k', v') :: rest, k, v =>
    if k' = k then (k, v) :: rest else (k', v') :: setA rest k v

/-- `Map.delete`: drop every entry with the key. -/
def eraseA {α β : Type} [DecidableEq α] : List (α × β) → α → List (α × β)
  | [], _ => []
  | (k', v) :: rest, k =>
    if k' = k then eraseA rest k else (k', v) :: eraseA rest k

/-- Server events (protocol type `ServerEvent`). -/
inductive ServerEvent where
  | roomCreated (roomHash peerId deleteToken : String)
  | roomJoined (roomHash peerId : String) (peerCount : Nat)
  | peerJoined (roomHash peerId : String) (peerCount : Nat)
  | peerLeft (roomHash peerId : String) (peerCount : Nat)
  | message (envelope : Envelope)
  | roomExpired (roomHash : String)
  | roomDeleted (roomHash : String)
  | error (msg : String) (code : String) (roomHash : Option String)
  | pong
deriving DecidableEq

/-- Bodies of the JSON responses emitted by `jsonResponse` calls. -/
inductive HttpBody where
  | errBody (msg : String) (code : Option String)
  | created (roomHash peerId deleteToken : String) (peerCount : Nat)
  | joined (roomHash peerId : String) (peerCount : Nat)
  | sent
  | polled (messages : List Envelope) (peerCount : Nat) (roomHash : String)
  | leftOk
  | deletedOk
deriving DecidableEq

/-- An HTTP response: status plus JSON body. -/
structure HttpResponse where
  status : Nat
  body : HttpBody
deriving DecidableEq

/-- One observable output of a handler: a push event delivered to a
connection, or the HTTP response delivered to the originating caller. -/
inductive Out where
  | ws (target : Nat) (ev : ServerEvent)
  | http (resp : HttpResponse)
deriving DecidableEq

/-- broadcast (relay/server.ts:106-112) restricted to a peer list: send the
event to every push peer except the one named by `excludeId`. -/
def broadcastTo (peers : List (String × Nat)) (ev : ServerEvent)
    (excludeId : Option String) : List Out :=
  match peers with
  | [] => []
  | (pid, w) :: rest =>
    if excludeId = some pid then broadcastTo rest ev excludeId
    else Out.ws w ev :: broadcastTo rest ev excludeId

/-- broadcast over a room's push peers. -/
def broadcast (room : Room) (ev : ServerEvent) (excludeId : Option String) :
    List Out :=
  broadcastTo room.peers ev excludeId

/-- Push fan-out of a message (relay/server.ts:351-355 and 618-620):
deliver the envelope to every push peer whose connection differs from
`senderWs`; `none` sends to everyone. -/
def fanOut (peers : List (String × Nat)) (env : Envelope)
    (senderWs : Option Nat) : List Out :=
  match peers with
  | [] => []
  | (_, w) :: rest =>
    if senderWs = some w then fanOut rest env senderWs
    else Out.ws w (ServerEvent.message env) :: fanOut rest env senderWs

/-- getRateWindow (relay/server.ts:82-90): fetch the window for `ip`,
resetting it when absent or expired. -/
def getRateWindow (rl : List (String × RateWindow)) (ip : String) (now : Int) :
    RateWindow × List (String × RateWindow) :=
  match lookupA rl ip with
  | some w =>
    if now - w.windowStart > RATE_LIMIT_WINDOW then
      (⟨0, 0, 0, now⟩, setA rl ip ⟨0, 0, 0, now⟩)
    else (w, rl)
  | none => (⟨0, 0, 0, now⟩, setA rl ip ⟨0, 0, 0, now⟩)

/-- The three rate-limited actions. -/
inductive RateAction where
  | creates
  | joins
  | messages
deriving DecidableEq

/-- Counter of one action inside a window. -/
def actionCount (w : RateWindow) : RateAction → Nat
  | .creates => w.creates
  | .joins => w.joins
  | .messages => w.messages

/-- Limit of one action (relay/server.ts:93). -/
def actionLimit : RateAction → Nat
  | .creates => RATE_LIMIT_CREATE
  | .joins => RATE_LIMIT_JOIN
  | .messages => RATE_LIMIT_MESSAGE

/-- Increment one action counter. -/
def bumpAction (w : RateWindow) : RateAction → RateWindow
  | .creates => { w with creates := w.creates + 1 }
  | .joins => { w with joins := w.joins + 1 }
  | .messages => { w with messages := w.messages + 1 }

/-- checkRate (relay/server.ts:92-98): deny when the counter reached the
limit, otherwise increment and admit.  Returns the admission flag and the
updated table. -/
def checkRate (rl : List (String × RateWindow)) (ip : String) (a : RateAction)
    (now : Int) : Bool × List (String × RateWindow) :=
  let p := getRateWindow rl ip now
  if actionCount p.1 a ≥ actionLimit a then (false, p.2)
  else (true, setA p.2 ip (bumpAction p.1 a))

/-- pushToBuffer (relay/server.ts:114-119): append, then drop the oldest
entry when the length exceeds 200. -/
def pushToBuffer (buf : List Envelope) (e : Envelope) : List Envelope :=
  let b := buf ++ [e]
  if b.length > MESSAGE_BUFFER_SIZE then b.drop 1 else b

/-- totalPeerCount (relay/server.ts:121-123). -/
def totalPeerCount (r : Room) : Nat :=
  r.peers.length + r.httpPeers.length

/-- trackWsRoom (relay/server.ts:125-132): `Set.add` semantics. -/
def trackWsRoom (w2r : List (Nat × List String)) (ws : Nat) (h : String) :
    List (Nat × List String) :=
  match lookupA w2r ws with
  | none => setA w2r ws [h]
  | some s => setA w2r ws (if h ∈ s then s else s ++ [h])

/-- Remove every occurrence of a string from a list. -/
def removeStr : List String → String → List String
  | [], _ => []
  | x :: rest, h => if x = h then removeStr rest h else x :: removeStr rest h

/-- untrackWsRoom (relay/server.ts:134-140). -/
def untrackWsRoom (w2r : List (Nat × List String)) (ws : Nat) (h : String) :
    List (Nat × List String) :=
  match lookupA w2r ws with
  | none => w2r
  | some s =>
    let s' := removeStr s h
    if s' = [] then eraseA w2r ws else setA w2r ws s'

/-- First peer id in the list whose connection is `ws` (the iteration order
of the `for (const [id, peer] of room.peers)` loops). -/
def findPeerOfWs : List (String × Nat) → Nat → Option String
  | [], _ => none
  | (pid, w) :: rest, ws => if w = ws then some pid else findPeerOfWs rest ws

/-- handleCreateRoom (relay/server.ts:186-223).  The minted peer id and
delete token and the wall clock are explicit arguments. -/
def handleCreateRoom (s : RelayState) (ws : Nat) (ttl : Int) (roomHash : String)
    (ip : String) (now : Int) (freshPeerId freshToken : String) :
    RelayState × List Out :=
  let c := checkRate s.rateLimits ip .creates now
  let s1 : RelayState := { s with rateLimits := c.2 }
  if !c.1 then
    (s1, [Out.ws ws (.error "Rate limit exceeded" "RATE_LIMITED" (some roomHash))])
  else if s1.rooms.length ≥ MAX_ROOMS then
    (s1, [Out.ws ws (.error "Service at capacity" "CAPACITY_EXCEEDED" (some roomHash))])
  else if (lookupA s1.rooms roomHash).isSome then
    (s1, [Out.ws ws (.error "Operation failed" "ROOM_ERROR" (some roomHash))])
  else
    let clampedTtl := min (max ttl 60) MAX_ROOM_TTL
    let room : Room :=
      ⟨roomHash, [(freshPeerId, ws)], [], [], freshToken, now, clampedTtl * 1000⟩
    ({ s1 with rooms := setA s1.rooms roomHash room,
               wsToRooms := trackWsRoom s1.wsToRooms ws roomHash },
     [Out.ws ws (.roomCreated roomHash freshPeerId freshToken)])

/-- handleJoinRoom (relay/server.ts:225-266). -/
def handleJoinRoom (s : RelayState) (ws : Nat) (roomHash : String) (ip : String)
    (now : Int) (freshPeerId : String) : RelayState × List Out :=
  let c := checkRate s.rateLimits ip .joins now
  let s1 : RelayState := { s with rateLimits := c.2 }
  if !c.1 then
    (s1, [Out.ws ws (.error "Rate limit exceeded" "RATE_LIMITED" (some roomHash))])
  else
    match lookupA s1.rooms roomHash with
    | none =>
      (s1, [Out.ws ws (.error "Operation failed" "ROOM_ERROR" (some roomHash))])
    | some room =>
      if totalPeerCount room ≥ MAX_PEERS_PER_ROOM then
        (s1, [Out.ws ws (.error "Room is full" "ROOM_FULL" (some roomHash))])
      else
        let room' := { room with peers := setA room.peers freshPeerId ws }
        ({ s1 with rooms := setA s1.rooms roomHash room',
                   wsToRooms := trackWsRoom s1.wsToRooms ws roomHash },
         Out.ws ws (.roomJoined roomHash freshPeerId (totalPeerCount room')) ::
           broadcast room' (.peerJoined roomHash freshPeerId (totalPeerCount room'))
             (some freshPeerId))

/-- handleLeaveRoom (relay/server.ts:268-289): silent when the room is
unknown or the connection has no peer there; otherwise remove the first
matching peer, untrack, broadcast `peer_left`, destroy the room if both
member sets emptied. -/
def handleLeaveRoom (s : RelayState) (ws : Nat) (roomHash : String) :
    RelayState × List Out :=
  match lookupA s.rooms roomHash with
  | none => (s, [])
  | some room =>
    match findPeerOfWs room.peers ws with
    | none => (s, [])
    | some pid =>
      let room' := { room with peers := eraseA room.peers pid }
      let w2r := untrackWsRoom s.wsToRooms ws roomHash
      let evs := broadcast room' (.peerLeft roomHash pid (totalPeerCount room')) none
      if room'.peers = [] ∧ room.httpPeers = [] then
        ({ s with rooms := eraseA s.rooms roomHash, wsToRooms := w2r }, evs)
      else
        ({ s with rooms := setA s.rooms roomHash room', wsToRooms := w2r }, evs)

/-- The `!deleteToken || room.deleteToken !== deleteToken` guard of both
delete handlers: `none` models a missing token, and the empty string is
falsy. -/
def tokenMatches (roomTok : String) (given : Option String) : Bool :=
  match given with
  | none => false
  | some t => if t = "" then false else decide (roomTok = t)

/-- handleDeleteRoom (relay/server.ts:291-313).  The socket closes issued
to evicted members are not modelled as outputs. -/
def handleDeleteRoom (s : RelayState) (ws : Nat) (roomHash : String)
    (deleteToken : Option String) : RelayState × List Out :=
  match lookupA s.rooms roomHash with
  | none => (s, [Out.ws ws (.error "Operation failed" "ROOM_ERROR" none)])
  | some room =>
    if tokenMatches room.deleteToken deleteToken then
      let evs := broadcast room (.roomDeleted roomHash) none
      let w2r := room.peers.foldl (fun acc p => untrackWsRoom acc p.2 roomHash)
        s.wsToRooms
      ({ s with rooms := eraseA s.rooms roomHash, wsToRooms := w2r }, evs)
    else
      (s, [Out.ws ws (.error "Invalid delete token" "INVALID_DELETE_TOKEN" none)])

/-- handleMessage (relay/server.ts:315-356): rate gate, structural
validation, room lookup by the envelope's own `room` field, membership by
connection identity, backlog append, fan-out excluding the sender's
connection. -/
def handleMessage (s : RelayState) (ws : Nat) (rawEnv : Option RawEnvelope)
    (ip : String) (now : Int) : RelayState × List Out :=
  let c := checkRate s.rateLimits ip .messages now
  let s1 : RelayState := { s with rateLimits := c.2 }
  if !c.1 then
    (s1, [Out.ws ws (.error "Rate limit exceeded" "RATE_LIMITED" none)])
  else
    match validateEnvelope rawEnv with
    | none => (s1, [Out.ws ws (.error "Invalid envelope" "INVALID_ENVELOPE" none)])
    | some env =>
      match lookupA s1.rooms env.room with
      | none => (s1, [Out.ws ws (.error "Operation failed" "ROOM_ERROR" none)])
      | some room =>
        match findPeerOfWs room.peers ws with
        | none => (s1, [Out.ws ws (.error "Not in room" "NOT_IN_ROOM" none)])
        | some _ =>
          let room' := { room with
            messageBuffer := pushToBuffer room.messageBuffer env }
          ({ s1 with rooms := setA s1.rooms env.room room' },
           fanOut room.peers env (some ws))

/-- Body of `POST /rooms`; `none` for the whole body models a JSON parse
failure, `none` fields model absent or mistyped properties. -/
structure CreateBody where
  roomHash : Option String
  ttl : Option Int
deriving DecidableEq

/-- handleHttpCreateRoom (relay/server.ts:503-549).  Note the `ttl || 3600`
default: a missing or zero ttl is replaced by 3600 before clamping. -/
def handleHttpCreateRoom (s : RelayState) (body : Option CreateBody)
    (ip : String) (now : Int) (freshPeerId freshToken : String) :
    RelayState × HttpResponse × List Out :=
  let c := checkRate s.rateLimits ip .creates now
  let s1 : RelayState := { s with rateLimits := c.2 }
  if !c.1 then
    (s1, ⟨429, .errBody "Rate limit exceeded" (some "RATE_LIMITED")⟩, [])
  else if s1.rooms.length ≥ MAX_ROOMS then
    (s1, ⟨503, .errBody "Service at capacity" (some "CAPACITY_EXCEEDED")⟩, [])
  else
    match body with
    | none => (s1, ⟨400, .errBody "Invalid request body" none⟩, [])
    | some b =>
      match b.roomHash with
      | none => (s1, ⟨400, .errBody "roomHash is required" none⟩, [])
      | some rh =>
        if rh = "" then (s1, ⟨400, .errBody "roomHash is required" none⟩, [])
        else if (lookupA s1.rooms rh).isSome then
          (s1, ⟨409, .errBody "Operation failed" (some "ROOM_ERROR")⟩, [])
        else
          let ttlVal : Int :=
            match b.ttl with
            | none => 3600
            | some t => if t = 0 then 3600 else t
          let clampedTtl := min (max ttlVal 60) MAX_ROOM_TTL
          let room : Room :=
            ⟨rh, [], [(freshPeerId, now)], [], freshToken, now, clampedTtl * 1000⟩
          ({ s1 with rooms := setA s1.rooms rh room },
           ⟨201, .created rh freshPeerId freshToken (totalPeerCount room)⟩, [])

/-- handleHttpJoinRoom (relay/server.ts:551-580). -/
def handleHttpJoinRoom (s : RelayState) (roomHash : String) (ip : String)
    (now : Int) (freshPeerId : String) : RelayState × HttpResponse × List Out :=
  let c := checkRate s.rateLimits ip .joins now
  let s1 : RelayState := { s with rateLimits := c.2 }
  if !c.1 then
    (s1, ⟨429, .errBody "Rate limit exceeded" (some "RATE_LIMITED")⟩, [])
  else
    match lookupA s1.rooms roomHash with
    | none => (s1, ⟨404, .errBody "Operation failed" (some "ROOM_ERROR")⟩, [])
    | some room =>
      if totalPeerCount room ≥ MAX_PEERS_PER_ROOM then
        (s1, ⟨403, .errBody "Room is full" (some "ROOM_FULL")⟩, [])
      else
        let room' := { room with httpPeers := setA room.httpPeers freshPeerId now }
        ({ s1 with rooms := setA s1.rooms roomHash room' },
         ⟨200, .joined roomHash freshPeerId (totalPeerCount room')⟩,
         broadcast room' (.peerJoined roomHash freshPeerId (totalPeerCount room')) none)

/-- Body of `POST /rooms/:hash/send`. -/
structure SendBody where
  envelope : Option RawEnvelope
  peerId : Option String
deriving DecidableEq

/-- handleHttpSendMessage (relay/server.ts:582-627): rate gate, structural
validation of the body envelope, lookup of the ROUTE hash (not the
envelope's `room`), membership of the body `peerId` in either member set,
last-seen refresh for poll members, backlog append, fan-out to every push
peer with no exclusion. -/
def handleHttpSendMessage (s : RelayState) (roomHash : String)
    (body : Option SendBody) (ip : String) (now : Int) :
    RelayState × HttpResponse × List Out :=
  let c := checkRate s.rateLimits ip .messages now
  let s1 : RelayState := { s with rateLimits := c.2 }
  if !c.1 then
    (s1, ⟨429, .errBody "Rate limit exceeded" (some "RATE_LIMITED")⟩, [])
  else
    match body with
    | none => (s1, ⟨400, .errBody "Invalid request body" none⟩, [])
    | some b =>
      match validateEnvelope b.envelope with
      | none => (s1, ⟨400, .errBody "Invalid envelope" none⟩, [])
      | some env =>
        match lookupA s1.rooms roomHash with
        | none => (s1, ⟨404, .errBody "Operation failed" (some "ROOM_ERROR")⟩, [])
        | some room =>
          match b.peerId with
          | none => (s1, ⟨403, .errBody "Not in room" (some "NOT_IN_ROOM")⟩, [])
          | some p =>
            let isWsPeer := (lookupA room.peers p).isSome
            let isHttpPeer := (lookupA room.httpPeers p).isSome
            if !isWsPeer && !isHttpPeer then
              (s1, ⟨403, .errBody "Not in room" (some "NOT_IN_ROOM")⟩, [])
            else
              let room1 :=
                if isHttpPeer then
                  { room with httpPeers := setA room.httpPeers p now }
                else room
              let room2 := { room1 with
                messageBuffer := pushToBuffer room1.messageBuffer env }
              ({ s1 with rooms := setA s1.rooms roomHash room2 },
               ⟨200, .sent⟩, fanOut room2.peers env none)

/-- The `ts > since` filter of the poll route. -/
def filterSince (buf : List Envelope) (since : Int) : List Envelope :=
  match buf with
  | [] => []
  | e :: rest =>
    if e.ts > since then e :: filterSince rest since else filterSince rest since

/-- handleHttpPollMessages (relay/server.ts:629-651): refresh the poll
peer's last-seen stamp when a known non-empty `peerId` is given, return
every backlog envelope with `ts > since` in order, the total member count
and the room hash. -/
def handleHttpPollMessages (s : RelayState) (roomHash : String) (since : Int)
    (peerId : Option String) (now : Int) : RelayState × HttpResponse × List Out :=
  match lookupA s.rooms roomHash with
  | none => (s, ⟨404, .errBody "Operation failed" (some "ROOM_ERROR")⟩, [])
  | some room =>
    let room' :=
      match peerId with
      | some p =>
        if p ≠ "" ∧ (lookupA room.httpPeers p).isSome then
          { room with httpPeers := setA room.httpPeers p now }
        else room
      | none => room
    ({ s with rooms := setA s.rooms roomHash room' },
     ⟨200, .polled (filterSince room'.messageBuffer since) (totalPeerCount room')
        roomHash⟩, [])

/-- handleHttpDeleteRoom (relay/server.ts:653-678). -/
def handleHttpDeleteRoom (s : RelayState) (roomHash : String)
    (deleteToken : Option String) : RelayState × HttpResponse × List Out :=
  match lookupA s.rooms roomHash with
  | none => (s, ⟨404, .errBody "Operation failed" (some "ROOM_ERROR")⟩, [])
  | some room =>
    if tokenMatches room.deleteToken deleteToken then
      let evs := broadcast room (.roomDeleted roomHash) none
      let w2r := room.peers.foldl (fun acc p => untrackWsRoom acc p.2 roomHash)
        s.wsToRooms
      ({ s with rooms := eraseA s.rooms roomHash, wsToRooms := w2r },
       ⟨200, .deletedOk⟩, evs)
    else
      (s, ⟨403, .errBody "Invalid delete token" (some "INVALID_DELETE_TOKEN")⟩, [])

/-- Body of `POST /rooms/:hash/leave`. -/
structure LeaveBody where
  peerId : Option String
deriving DecidableEq

/-- handleHttpLeaveRoom (relay/server.ts:680-713): only poll members can
leave; an unknown room yields the generic `ROOM_ERROR`, an unknown peer in
a live room yields a codeless 404 `Peer not found`. -/
def handleHttpLeaveRoom (s : RelayState) (roomHash : String)
    (body : Option LeaveBody) : RelayState × HttpResponse × List Out :=
  match body with
  | none => (s, ⟨400, .errBody "Invalid request body" none⟩, [])
  | some b =>
    match lookupA s.rooms roomHash with
    | none => (s, ⟨404, .errBody "Operation failed" (some "ROOM_ERROR")⟩, [])
    | some room =>
      match b.peerId with
      | none => (s, ⟨404, .errBody "Peer not found" none⟩, [])
      | some p =>
        if (lookupA room.httpPeers p).isSome then
          let room' := { room with httpPeers := eraseA room.httpPeers p }
          let evs := broadcast room' (.peerLeft roomHash p (totalPeerCount room')) none
          if room.peers = [] ∧ room'.httpPeers = [] then
            ({ s with rooms := eraseA s.rooms roomHash }, ⟨200, .leftOk⟩, evs)
          else
            ({ s with rooms := setA s.rooms roomHash room' }, ⟨200, .leftOk⟩, evs)
        else (s, ⟨404, .errBody "Peer not found" none⟩, [])

/-- removePeerFromAllRooms, per-room step (relay/server.ts:146-165): remove
the FIRST peer entry whose connection matches (the `break` stops the scan),
broadcast `peer_left` to the remaining members, destroy the room when both
member sets emptied. -/
def removeWsFromRoom (rooms : List (String × Room)) (h : String) (ws : Nat) :
    List (String × Room) × List Out :=
  match lookupA rooms h with
  | none => (rooms, [])
  | some room =>
    match findPeerOfWs room.peers ws with
    | none => (rooms, [])
    | some pid =>
      let room' := { room with peers := eraseA room.peers pid }
      let evs := broadcastTo room'.peers (.peerLeft h pid (totalPeerCount room')) none
      if room'.peers = [] ∧ room.httpPeers = [] then (eraseA rooms h, evs)
      else (setA rooms h room', evs)

/-- The loop of removePeerFromAllRooms over the connection's tracked room
hashes. -/
def removePeerLoop (rooms : List (String × Room)) (hs : List String) (ws : Nat) :
    List (String × Room) × List Out :=
  match hs with
  | [] => (rooms, [])
  | h :: rest =>
    let step := removeWsFromRoom rooms h ws
    let tail := removePeerLoop step.1 rest ws
    (tail.1, step.2 ++ tail.2)

/-- removePeerFromAllRooms (relay/server.ts:142-169). -/
def removePeerFromAllRooms (s : RelayState) (ws : Nat) : RelayState × List Out :=
  match lookupA s.wsToRooms ws with
  | none => (s, [])
  | some hs =>
    let r := removePeerLoop s.rooms hs ws
    ({ s with rooms := r.1, wsToRooms := eraseA s.wsToRooms ws }, r.2)

/-- The poll-peer timeout sweep inside cleanupExpiredRooms
(relay/server.ts:371-381): evict each poll member idle beyond
HTTP_PEER_TIMEOUT, broadcasting `peer_left` after each eviction. -/
def sweepHttpPeers (r : Room) (hash : String) (pending : List (String × Int))
    (now : Int) : Room × List Out :=
  match pending with
  | [] => (r, [])
  | (p, last) :: rest =>
    if now - last > HTTP_PEER_TIMEOUT then
      let r' := { r with httpPeers := eraseA r.httpPeers p }
      let evs := broadcastTo r'.peers (.peerLeft hash p (totalPeerCount r')) none
      let tail := sweepHttpPeers r' hash rest now
      (tail.1, evs ++ tail.2)
    else sweepHttpPeers r hash rest now

/-- The per-room loop of cleanupExpiredRooms (relay/server.ts:358-386):
destroy TTL-expired rooms (emitting `room_expired` and untracking their
push peers), sweep idle poll peers of surviving rooms, and drop rooms whose
member sets are both empty. -/
def cleanupRoomsLoop (entries : List (String × Room))
    (w2r : List (Nat × List String)) (now : Int) :
    List (String × Room) × List (Nat × List String) × List Out :=
  match entries with
  | [] => ([], w2r, [])
  | (h, r) :: rest =>
    if now - r.createdAt > r.ttl then
      let evs := broadcastTo r.peers (.roomExpired h) none
      let w2r' := r.peers.foldl (fun acc p => untrackWsRoom acc p.2 h) w2r
      let tail := cleanupRoomsLoop rest w2r' now
      (tail.1, tail.2.1, evs ++ tail.2.2)
    else
      let swept := sweepHttpPeers r h r.httpPeers now
      let tail := cleanupRoomsLoop rest w2r now
      if swept.1.peers = [] ∧ swept.1.httpPeers = [] then
        (tail.1, tail.2.1, swept.2 ++ tail.2.2)
      else
        ((h, swept.1) :: tail.1, tail.2.1, swept.2 ++ tail.2.2)

/-- The rate-window garbage collection of cleanupExpiredRooms
(relay/server.ts:388-392). -/
def pruneWindows (rl : List (String × RateWindow)) (now : Int) :
    List (String × RateWindow) :=
  match rl with
  | [] => []
  | (ip, w) :: rest =>
    if now - w.windowStart > RATE_LIMIT_WINDOW * 2 then pruneWindows rest now
    else (ip, w) :: pruneWindows rest now

/-- cleanupExpiredRooms (relay/server.ts:358-393). -/
def cleanupExpiredRooms (s : RelayState) (now : Int) : RelayState × List Out :=
  let r := cleanupRoomsLoop s.rooms s.wsToRooms now
  (⟨r.1, r.2.1, pruneWindows s.rateLimits now⟩, r.2.2)

/-- One client-visible operation of the relay: the push frames dispatched
at relay/server.ts:736-755 (including an unparseable frame and a
connection close) and the HTTP routes dispatched at
relay/server.ts:473-498, plus a Janitor tick. -/
inductive Op where
  | wsCreate (ws : Nat) (ttl : Int) (roomHash ip : String) (now : Int)
      (pid tok : String)
  | wsJoin (ws : Nat) (roomHash ip : String) (now : Int) (pid : String)
  | wsLeave (ws : Nat) (roomHash : String)
  | wsDelete (ws : Nat) (roomHash : String) (tok : Option String)
  | wsMessage (ws : Nat) (rawEnv : Option RawEnvelope) (ip : String) (now : Int)
  | wsPing (ws : Nat)
  | wsBadFrame (ws : Nat)
  | wsClose (ws : Nat)
  | httpCreate (body : Option CreateBody) (ip : String) (now : Int) (pid tok : String)
  | httpJoin (roomHash ip : String) (now : Int) (pid : String)
  | httpSend (roomHash : String) (body : Option SendBody) (ip : String) (now : Int)
  | httpPoll (roomHash : String) (since : Int) (peerId : Option String) (now : Int)
  | httpLeave (roomHash : String) (body : Option LeaveBody)
  | httpDelete (roomHash : String) (tok : Option String)
  | cleanup (now : Int)
deriving DecidableEq

/-- Dispatch one operation; for HTTP routes the response is appended after
the broadcasts, matching the emission order of the source handlers. -/
def applyOp (s : RelayState) : Op → RelayState × List Out
  | .wsCreate ws ttl rh ip now pid tok => handleCreateRoom s ws ttl rh ip now pid tok
  | .wsJoin ws rh ip now pid => handleJoinRoom s ws rh ip now pid
  | .wsLeave ws rh => handleLeaveRoom s ws rh
  | .wsDelete ws rh tok => handleDeleteRoom s ws rh tok
  | .wsMessage ws raw ip now => handleMessage s ws raw ip now
  | .wsPing ws => (s, [Out.ws ws .pong])
  | .wsBadFrame ws =>
    (s, [Out.ws ws (.error "Invalid message format" "INVALID_FORMAT" none)])
  | .wsClose ws => removePeerFromAllRooms s ws
  | .httpCreate body ip now pid tok =>
    let r := handleHttpCreateRoom s body ip now pid tok
    (r.1, r.2.2 ++ [Out.http r.2.1])
  | .httpJoin rh ip now pid =>
    let r := handleHttpJoinRoom s rh ip now pid
    (r.1, r.2.2 ++ [Out.http r.2.1])
  | .httpSend rh body ip now =>
    let r := handleHttpSendMessage s rh body ip now
    (r.1, r.2.2 ++ [Out.http r.2.1])
  | .httpPoll rh since pid now =>
    let r := handleHttpPollMessages s rh since pid now
    (r.1, r.2.2 ++ [Out.http r.2.1])
  | .httpLeave rh body =>
    let r := handleHttpLeaveRoom s rh body
    (r.1, r.2.2 ++ [Out.http r.2.1])
  | .httpDelete rh tok =>
    let r := handleHttpDeleteRoom s rh tok
    (r.1, r.2.2 ++ [Out.http r.2.1])
  | .cleanup now => cleanupExpiredRooms s now

/-- The state of a freshly started relay: all registries empty. -/
def initState : RelayState := ⟨[], [], []⟩

/-- Run a sequence of operations from the initial state. -/
def runOps (ops : List Op) : RelayState :=
  ops.foldl (fun s op => (applyOp s op).1) initState

/-- The eight wire error codes of §7 of the spec. -/
def isErrCode (c : String) : Bool :=
  c == "RATE_LIMITED" || c == "CAPACITY_EXCEEDED" || c == "ROOM_ERROR" ||
  c == "ROOM_FULL" || c == "NOT_IN_ROOM" || c == "INVALID_DELETE_TOKEN" ||
  c == "INVALID_ENVELOPE" || c == "INVALID_FORMAT"

/-- Whether a push event is an error carrying one of the eight codes. -/
def isErrEv : ServerEvent → Bool
  | .error _ c _ => isErrCode c
  | _ => false

/-- Whether an output is an error (push error event, or an HTTP error body
with one of the eight codes). -/
def isErrOut : Out → Bool
  | .ws _ ev => isErrEv ev
  | .http r =>
    match r.body with
    | .errBody _ (some c) => isErrCode c
    | _ => false

/-- The error code carried by an output, when any. -/
def errCodeOf : Out → Option String
  | .ws _ (.error _ c _) => some c
  | .http r =>
    match r.body with
    | .errBody _ c => c
    | _ => none
  | _ => none

/-- The originating caller of an operation: the push connection for ws
frames, the HTTP requester (represented by `none`) for poll routes. -/
def opCaller : Op → Option Nat
  | .wsCreate ws _ _ _ _ _ _ => some ws
  | .wsJoin ws _ _ _ _ => some ws
  | .wsLeave ws _ => some ws
  | .wsDelete ws _ _ => some ws
  | .wsMessage ws _ _ _ => some ws
  | .wsPing ws => some ws
  | .wsBadFrame ws => some ws
  | .wsClose ws => some ws
  | .httpCreate _ _ _ _ _ => none
  | .httpJoin _ _ _ _ => none
  | .httpSend _ _ _ _ => none
  | .httpPoll _ _ _ _ => none
  | .httpLeave _ _ => none
  | .httpDelete _ _ => none
  | .cleanup _ => none

/-- Whether an output is addressed to the given caller. -/
def outToCaller : Option Nat → Out → Bool
  | some ws, .ws t _ => t == ws
  | none, .http _ => true
  | _, _ => false

/-- The backlog-bound invariant of §8: every room's backlog holds at most
200 envelopes. -/
def BacklogBounded (s : RelayState) : Prop :=
  ∀ p ∈ s.rooms, p.2.messageBuffer.length ≤ MESSAGE_BUFFER_SIZE

/-- The `ttl || 3600` defaulting performed by the HTTP create route before
clamping: a missing or zero (falsy) ttl becomes 3600. -/
def httpDefaultTtl : Option Int → Int
  | none => 3600
  | some t => if t = 0 then 3600 else t

/-- A room with one push peer `p` on connection 7, used as a sample. -/
def roomC3 : Room := ⟨"h", [("p", 7)], [], [], "t", 0, 86400000⟩

/-- Sample state holding `roomC3`. -/
def stateC3 : RelayState := ⟨[("h", roomC3)], [(7, ["h"])], []⟩

/-- A raw envelope addressed to room `h` from peer `p`. -/
def rawEcho : RawEnvelope := ⟨some "h", some "p", some "x", some "n", some 5⟩

/-- The validated form of `rawEcho`. -/
def envEcho : Envelope := ⟨"h", "p", "x", "n", 5⟩

/-- A room with one push peer `alice` and one poll peer `bob`. -/
def roomC9 : Room := ⟨"h", [("alice", 1)], [("bob", 0)], [], "t", 0, 86400000⟩

/-- Sample state holding `roomC9`. -/
def stateC9 : RelayState := ⟨[("h", roomC9)], [(1, ["h"])], []⟩

/-- A raw envelope whose `room` names a different room than the route it
is sent on and whose `from` names another member. -/
def rawSpoof : RawEnvelope := ⟨some "zz", some "alice", some "x", some "n", some 7⟩

/-- The validated form of `rawSpoof`. -/
def envSpoof : Envelope := ⟨"zz", "alice", "x", "n", 7⟩

/-- A room with one push peer and two poll peers. -/
def roomC6 : Room := ⟨"h", [("w", 9)], [("p", 0), ("q", 0)], [], "t", 0, 86400000⟩

/-- Sample state holding `roomC6`. -/
def stateC6 : RelayState := ⟨[("h", roomC6)], [(9, ["h"])], []⟩

/-- Sample envelopes with increasing timestamps. -/
def env1 : Envelope := ⟨"h", "a", "x1", "n1", 1⟩

/-- Second sample envelope. -/
def env2 : Envelope := ⟨"h", "a", "x2", "n2", 5⟩

/-- Third sample envelope. -/
def env3 : Envelope := ⟨"h", "b", "x3", "n3", 9⟩

/-- A room with a three-envelope backlog. -/
def roomC7 : Room := ⟨"h", [("a", 1)], [("b", 0)], [env1, env2, env3], "t", 0, 86400000⟩

/-- Sample state holding `roomC7`. -/
def stateC7 : RelayState := ⟨[("h", roomC7)], [(1, ["h"])], []⟩

/-- A room whose ttl (1000 ms) has long passed at `now = 2000`. -/
def roomC4 : Room := ⟨"hx", [], [("p", 0)], [], "t", 0, 1000⟩

/-- Sample state holding the expired `roomC4`. -/
def stateC4 : RelayState := ⟨[("hx", roomC4)], [], []⟩

/-- Operations that make connection 7 hold two peer identifiers in the
same room `h`: it creates the room and then joins it again. -/
def opsC2 : List Op :=
  [Op.wsCreate 7 120 "h" "ipA" 0 "pA" "tA", Op.wsJoin 7 "h" "ipA" 0 "pB"]

/-- The reachable state produced by `opsC2`. -/
def stateC2 : RelayState := runOps opsC2

/-- One create operation, for the C8 witness. -/
def opsC8 : List Op := [Op.wsCreate 1 120 "h1" "ip" 0 "p1" "t1"]

/-- The room created by `opsC8`. -/
def roomC8 : Room := ⟨"h1", [("p1", 1)], [], [], "t1", 0, 120000⟩

theorem lookupA_mem {α β : Type} [DecidableEq α] :
    ∀ {l : List (α × β)} {k : α} {v : β}, lookupA l k = some v → (k, v) ∈ l := by
  intro l
  induction l with
  | nil => intro k v h; simp [lookupA] at h
  | cons p rest ih =>
    intro k v h
    obtain ⟨k', v'⟩ := p
    simp only [lookupA] at h
    split at h
    · next heq =>
      injection h with hv
      subst heq
      subst hv
      exact List.mem_cons_self _ _
    · exact List.mem_cons_of_mem _ (ih h)

theorem lookupA_setA_self {α β : Type} [DecidableEq α] (l : List (α × β))
    (k : α) (v : β) : lookupA (setA l k v) k = some v := by
  induction l with
  | nil => simp [setA, lookupA]
  | cons p rest ih =>
    obtain ⟨k', v'⟩ := p
    by_cases hk : k' = k
    · simp [setA, hk, lookupA]
    · simp [setA, hk, lookupA, ih]

theorem lookupA_setA_ne {α β : Type} [DecidableEq α] (l : List (α × β))
    (k k' : α) (v : β) (h : k' ≠ k) : lookupA (setA l k v) k' = lookupA l k' := by
  induction l with
  | nil => simp [setA, lookupA, Ne.symm h]
  | cons p rest ih =>
    obtain ⟨ka, va⟩ := p
    by_cases hk : ka = k
    · subst hk
      simp [setA, lookupA, Ne.symm h]
    · simp [setA, hk, lookupA, ih]

theorem lookupA_eraseA_self {α β : Type} [DecidableEq α] (l : List (α × β))
    (k : α) : lookupA (eraseA l k) k = none := by
  induction l with
  | nil => simp [eraseA, lookupA]
  | cons p rest ih =>
    obtain ⟨k', v'⟩ := p
    by_cases hk : k' = k
    · simp [eraseA, hk, ih]
    · simp [eraseA, hk, lookupA, ih]

theorem lookupA_eraseA_ne {α β : Type} [DecidableEq α] (l : List (α × β))
    (k k' : α) (h : k' ≠ k) : lookupA (eraseA l k) k' = lookupA l k' := by
  induction l with
  | nil => simp [eraseA]
  | cons p rest ih =>
    obtain ⟨ka, va⟩ := p
    by_cases hk : ka = k
    · subst hk
      simp [eraseA, lookupA, Ne.symm h, ih]
    · simp [eraseA, hk, lookupA, ih]

theorem mem_setA {α β : Type} [DecidableEq α] :
    ∀ {l : List (α × β)} {k : α} {v : β} {p : α × β},
      p ∈ setA l k v → p ∈ l ∨ p = (k, v) := by
  intro l
  induction l with
  | nil => intro k v p h; simp [setA] at h; right; exact h
  | cons q rest ih =>
    intro k v p h
    obtain ⟨ka, va⟩ := q
    by_cases hk : ka = k
    · simp only [setA, if_pos hk] at h
      rcases List.mem_cons.mp h with h1 | h2
      · right; exact h1
      · left; exact List.mem_cons_of_mem _ h2
    · simp only [setA, if_neg hk] at h
      rcases List.mem_cons.mp h with h1 | h2
      · left; exact h1 ▸ List.mem_cons_self _ _
      · rcases ih h2 with h3 | h3
        · left; exact List.mem_cons_of_mem _ h3
        · right; exact h3

theorem mem_eraseA {α β : Type} [DecidableEq α] :
    ∀ {l : List (α × β)} {k : α} {p : α × β}, p ∈ eraseA l k → p ∈ l := by
  intro l
  induction l with
  | nil => intro k p h; simp [eraseA] at h
  | cons q rest ih =>
    intro k p h
    obtain ⟨ka, va⟩ := q
    by_cases hk : ka = k
    · simp only [eraseA, if_pos hk] at h
      exact List.mem_cons_of_mem _ (ih h)
    · simp only [eraseA, if_neg hk] at h
      rcases List.mem_cons.mp h with h1 | h2
      · exact h1 ▸ List.mem_cons_self _ _
      · exact List.mem_cons_of_mem _ (ih h2)

theorem setA_length_of_mem {α β : Type} [DecidableEq α] :
    ∀ {l : List (α × β)} {k : α} {w v : β},
      lookupA l k = some w → (setA l k v).length = l.length := by
  intro l
  induction l with
  | nil => intro k w v h; simp [lookupA] at h
  | cons q rest ih =>
    intro k w v h
    obtain ⟨ka, va⟩ := q
    by_cases hk : ka = k
    · simp [setA, hk]
    · simp only [lookupA, if_neg hk] at h
      simp [setA, hk, ih h]

theorem pushToBuffer_length {buf : List Envelope} {e : Envelope}
    (h : buf.length ≤ MESSAGE_BUFFER_SIZE) :
    (pushToBuffer buf e).length ≤ MESSAGE_BUFFER_SIZE := by
  simp only [pushToBuffer]
  split
  · next hgt =>
    simp only [List.length_drop, List.length_append, List.length_singleton,
      MESSAGE_BUFFER_SIZE] at *
    omega
  · next hng =>
    simp only [List.length_append, List.length_singleton, MESSAGE_BUFFER_SIZE] at *
    omega

theorem mem_broadcastTo {peers : List (String × Nat)} {ev : ServerEvent}
    {ex : Option String} {o : Out} (h : o ∈ broadcastTo peers ev ex) :
    ∃ p ∈ peers, o = Out.ws p.2 ev := by
  induction peers with
  | nil => simp [broadcastTo] at h
  | cons q rest ih =>
    obtain ⟨pid, w⟩ := q
    simp only [broadcastTo] at h
    split at h
    · obtain ⟨p, hp, ho⟩ := ih h
      exact ⟨p, List.mem_cons_of_mem _ hp, ho⟩
    · rcases List.mem_cons.mp h with h1 | h2
      · exact ⟨(pid, w), List.mem_cons_self _ _, h1⟩
      · obtain ⟨p, hp, ho⟩ := ih h2
        exact ⟨p, List.mem_cons_of_mem _ hp, ho⟩

theorem broadcastTo_mem_none {peers : List (String × Nat)} {ev : ServerEvent}
    {p : String × Nat} (h : p ∈ peers) :
    Out.ws p.2 ev ∈ broadcastTo peers ev none := by
  induction peers with
  | nil => simp at h
  | cons q rest ih =>
    obtain ⟨pid, w⟩ := q
    simp only [broadcastTo]
    rw [if_neg (by simp)]
    rcases List.mem_cons.mp h with h1 | h2
    · subst h1
      exact List.mem_cons_self _ _
    · exact List.mem_cons_of_mem _ (ih h2)

theorem mem_fanOut {peers : List (String × Nat)} {env : Envelope}
    {sw : Option Nat} {o : Out} (h : o ∈ fanOut peers env sw) :
    ∃ p ∈ peers, sw ≠ some p.2 ∧ o = Out.ws p.2 (ServerEvent.message env) := by
  induction peers with
  | nil => simp [fanOut] at h
  | cons q rest ih =>
    obtain ⟨pid, w⟩ := q
    simp only [fanOut] at h
    split at h
    · obtain ⟨p, hp, hne, ho⟩ := ih h
      exact ⟨p, List.mem_cons_of_mem _ hp, hne, ho⟩
    · next hne =>
      rcases List.mem_cons.mp h with h1 | h2
      · exact ⟨(pid, w), List.mem_cons_self _ _, hne, h1⟩
      · obtain ⟨p, hp, hne2, ho⟩ := ih h2
        exact ⟨p, List.mem_cons_of_mem _ hp, hne2, ho⟩

theorem fanOut_mem_none {peers : List (String × Nat)} {env : Envelope}
    {p : String × Nat} (h : p ∈ peers) :
    Out.ws p.2 (ServerEvent.message env) ∈ fanOut peers env none := by
  induction peers with
  | nil => simp at h
  | cons q rest ih =>
    obtain ⟨pid, w⟩ := q
    simp only [fanOut]
    rw [if_neg (by simp)]
    rcases List.mem_cons.mp h with h1 | h2
    · subst h1
      exact List.mem_cons_self _ _
    · exact List.mem_cons_of_mem _ (ih h2)

theorem broadcastTo_not_err {peers : List (String × Nat)} {ev : ServerEvent}
    {ex : Option String} {o : Out} (hev : isErrEv ev = false)
    (h : o ∈ broadcastTo peers ev ex) : isErrOut o = false := by
  obtain ⟨p, _, ho⟩ := mem_broadcastTo h
  subst ho
  exact hev

theorem fanOut_not_err {peers : List (String × Nat)} {env : Envelope}
    {sw : Option Nat} {o : Out} (h : o ∈ fanOut peers env sw) :
    isErrOut o = false := by
  obtain ⟨p, _, _, ho⟩ := mem_fanOut h
  subst ho
  rfl

theorem sweepHttpPeers_not_err {r : Room} {hash : String}
    {pending : List (String × Int)} {now : Int} {o : Out}
    (h : o ∈ (sweepHttpPeers r hash pending now).2) : isErrOut o = false := by
  induction pending generalizing r with
  | nil => simp [sweepHttpPeers] at h
  | cons q rest ih =>
    obtain ⟨p, last⟩ := q
    simp only [sweepHttpPeers] at h
    split at h
    · rcases List.mem_append.mp h with h1 | h2
      · exact broadcastTo_not_err (by rfl) h1
      · exact ih h2
    · exact ih h

theorem removeWsFromRoom_not_err {rooms : List (String × Room)} {h : String}
    {ws : Nat} {o : Out} (hm : o ∈ (removeWsFromRoom rooms h ws).2) :
    isErrOut o = false := by
  simp only [removeWsFromRoom] at hm
  split at hm
  · simp at hm
  · split at hm
    · simp at hm
    · split at hm
      · exact broadcastTo_not_err (by rfl) hm
      · exact broadcastTo_not_err (by rfl) hm

theorem removePeerLoop_not_err {hs : List String} {rooms : List (String × Room)}
    {ws : Nat} {o : Out} (hm : o ∈ (removePeerLoop rooms hs ws).2) :
    isErrOut o = false := by
  induction hs generalizing rooms with
  | nil => simp [removePeerLoop] at hm
  | cons h rest ih =>
    simp only [removePeerLoop] at hm
    rcases List.mem_append.mp hm with h1 | h2
    · exact removeWsFromRoom_not_err h1
    · exact ih h2

theorem cleanupRoomsLoop_not_err {entries : List (String × Room)}
    {w2r : List (Nat × List String)} {now : Int} {o : Out}
    (hm : o ∈ (cleanupRoomsLoop entries w2r now).2.2) : isErrOut o = false := by
  induction entries generalizing w2r with
  | nil => simp [cleanupRoomsLoop] at hm
  | cons q rest ih =>
    obtain ⟨h, r⟩ := q
    simp only [cleanupRoomsLoop] at hm
    split at hm
    · rcases List.mem_append.mp hm with h1 | h2
      · exact broadcastTo_not_err (by rfl) h1
      · exact ih h2
    · split at hm
      · rcases List.mem_append.mp hm with h1 | h2
        · exact sweepHttpPeers_not_err h1
        · exact ih h2
      · rcases List.mem_append.mp hm with h1 | h2
        · exact sweepHttpPeers_not_err h1
        · exact ih h2

theorem actionLimit_pos (a : RateAction) : 0 < actionLimit a := by
  cases a <;> simp [actionLimit, RATE_LIMIT_CREATE, RATE_LIMIT_JOIN, RATE_LIMIT_MESSAGE]

theorem actionCount_zero (a : RateAction) (n : Int) :
    actionCount ⟨0, 0, 0, n⟩ a = 0 := by
  cases a <;> rfl

theorem getRateWindow_spec (rl : List (String × RateWindow)) (ip : String)
    (now : Int) :
    (∃ w, lookupA rl ip = some w ∧ ¬(now - w.windowStart > RATE_LIMIT_WINDOW) ∧
      getRateWindow rl ip now = (w, rl)) ∨
    getRateWindow rl ip now = (⟨0, 0, 0, now⟩, setA rl ip ⟨0, 0, 0, now⟩) := by
  unfold getRateWindow
  cases hw : lookupA rl ip with
  | none => right; rfl
  | some w =>
    by_cases hex : now - w.windowStart > RATE_LIMIT_WINDOW
    · right
      simp [hex]
    · left
      exact ⟨w, rfl, hex, by simp [hex]⟩

theorem checkRate_deny (rl : List (String × RateWindow)) (ip : String)
    (a : RateAction) (now : Int) (h : (checkRate rl ip a now).1 = false) :
    (checkRate rl ip a now).2 = rl := by
  rcases getRateWindow_spec rl ip now with ⟨w, hw, hex, heq⟩ | heq
  · simp only [checkRate, heq] at h ⊢
    by_cases hc : actionCount w a ≥ actionLimit a
    · simp [hc]
    · simp [hc] at h
  · simp only [checkRate, heq, actionCount_zero] at h
    rw [if_neg (by have := actionLimit_pos a; omega)] at h
    simp at h

/-- C10: a push `leave_room` frame naming an unknown room, or arriving on a
connection with no push membership in that room, produces no server event
at all and leaves the relay state unchanged; only when the connection holds
a membership is the first matching peer removed, `peer_left` broadcast to
the remaining members, and the room destroyed when both member sets become
empty. -/
theorem C10_push_leave_quiet (s : RelayState) (ws : Nat) (h : String) :
    (lookupA s.rooms h = none → handleLeaveRoom s ws h = (s, [])) ∧
    (∀ r, lookupA s.rooms h = some r → findPeerOfWs r.peers ws = none →
      handleLeaveRoom s ws h = (s, [])) ∧
    (∀ r pid, lookupA s.rooms h = some r → findPeerOfWs r.peers ws = some pid →
      (handleLeaveRoom s ws h).2 =
        broadcastTo (eraseA r.peers pid)
          (ServerEvent.peerLeft h pid
            ((eraseA r.peers pid).length + r.httpPeers.length)) none ∧
      (eraseA r.peers pid = [] ∧ r.httpPeers = [] →
        lookupA (handleLeaveRoom s ws h).1.rooms h = none) ∧
      (¬(eraseA r.peers pid = [] ∧ r.httpPeers = []) →
        lookupA (handleLeaveRoom s ws h).1.rooms h =
          some { r with peers := eraseA r.peers pid })) := by
  refine ⟨?_, ?_, ?_⟩
  · intro hnone
    simp [handleLeaveRoom, hnone]
  · intro r hr hnp
    simp [handleLeaveRoom, hr, hnp]
  · intro r pid hr hp
    refine ⟨?_, ?_, ?_⟩
    · simp only [handleLeaveRoom, hr, hp, broadcast, totalPeerCount]
      split <;> rfl
    · intro hdes
      simp only [handleLeaveRoom, hr, hp]
      rw [if_pos hdes]
      exact lookupA_eraseA_self _ _
    · intro hdes
      simp only [handleLeaveRoom, hr, hp]
      rw [if_neg hdes]
      exact lookupA_setA_self _ _ _

/-- C10 witness: on the sample state, a leave for an unknown hash and a
leave from a non-member connection are both silent no-ops, and a leave
from the member connection 7 removes the peer and destroys the now-empty
room. -/
theorem C10_push_leave_quiet_witness :
    lookupA stateC3.rooms "zz" = none ∧
    handleLeaveRoom stateC3 8 "zz" = (stateC3, []) ∧
    lookupA stateC3.rooms "h" = some roomC3 ∧
    findPeerOfWs roomC3.peers 8 = none ∧
    handleLeaveRoom stateC3 8 "h" = (stateC3, []) ∧
    findPeerOfWs roomC3.peers 7 = some "p" ∧
    (handleLeaveRoom stateC3 7 "h").2 =
      broadcastTo (eraseA roomC3.peers "p")
        (ServerEvent.peerLeft "h" "p"
          ((eraseA roomC3.peers "p").length + roomC3.httpPeers.length)) none ∧
    lookupA (handleLeaveRoom stateC3 7 "h").1.rooms "h" = none := by
  refine ⟨by decide, ?_, by decide, by decide, ?_, by decide, ?_, ?_⟩
  · exact (C10_push_leave_quiet stateC3 8 "zz").1 (by decide)
  · exact (C10_push_leave_quiet stateC3 8 "h").2.1 roomC3 (by decide) (by decide)
  · exact ((C10_push_leave_quiet stateC3 7 "h").2.2 roomC3 "p" (by decide) (by decide)).1
  · exact ((C10_push_leave_quiet stateC3 7 "h").2.2 roomC3 "p" (by decide)
      (by decide)).2.1 (by decide)

theorem filterSince_eq_filter (buf : List Envelope) (t : Int) :
    filterSince buf t = buf.filter (fun e => decide (e.ts > t)) := by
  induction buf with
  | nil => rfl
  | cons e rest ih =>
    by_cases hc : e.ts > t
    · simp [filterSince, List.filter_cons, hc, ih]
    · simp [filterSince, List.filter_cons, hc, ih]

/-- C7: polling a live room with a numeric cursor returns status 200 with
exactly the backlog envelopes whose `ts` is strictly greater than `since`,
in backlog order (the order-preserving filter of the backlog), together
with the current total member count (push plus poll members) and the room
hash; no push event is emitted. -/
theorem C7_poll_semantics (s : RelayState) (h : String) (r : Room)
    (since : Int) (pid : Option String) (now : Int)
    (hr : lookupA s.rooms h = some r) :
    (handleHttpPollMessages s h since pid now).2.1 =
      ⟨200, HttpBody.polled (filterSince r.messageBuffer since)
        (totalPeerCount r) h⟩ ∧
    (handleHttpPollMessages s h since pid now).2.2 = [] ∧
    filterSince r.messageBuffer since =
      r.messageBuffer.filter (fun e => decide (e.ts > since)) := by
  refine ⟨?_, ?_, filterSince_eq_filter _ _⟩
  · cases pid with
    | none => simp [handleHttpPollMessages, hr]
    | some p =>
      by_cases hc : p ≠ "" ∧ (lookupA r.httpPeers p).isSome
      · obtain ⟨w, hw⟩ := Option.isSome_iff_exists.mp hc.2
        simp [handleHttpPollMessages, hr, hc, totalPeerCount, setA_length_of_mem hw]
      · simp [handleHttpPollMessages, hr, hc]
  · cases pid with
    | none => simp [handleHttpPollMessages, hr]
    | some p =>
      by_cases hc : p ≠ "" ∧ (lookupA r.httpPeers p).isSome
      · simp [handleHttpPollMessages, hr, hc]
      · simp [handleHttpPollMessages, hr, hc]

/-- C7 witness: polling the sample room with cursor 4 returns the two
envelopes stamped after 4 and the member count 2. -/
theorem C7_poll_semantics_witness :
    lookupA stateC7.rooms "h" = some roomC7 ∧
    (handleHttpPollMessages stateC7 "h" 4 none 0).2.1 =
      ⟨200, HttpBody.polled [env2, env3] 2 "h"⟩ := by
  refine ⟨by decide, ?_⟩
  have hmain := C7_poll_semantics stateC7 "h" roomC7 4 none 0 (by decide)
  rw [hmain.1]
  decide

/-- C5 counterexample: creating a room over HTTP with requested `ttl = 0`
stores a lifetime of 3600 s (3600000 ms) because of the `ttl || 3600`
defaulting, while the claimed formula `min(max(ttl, 60), 86400)` yields
60 s; so the created room's lifetime does not equal the claimed clamp for
every requested ttl. -/
theorem C5_ttl_clamp_counterexample :
    (lookupA (handleHttpCreateRoom initState (some ⟨some "h", some 0⟩)
      "ip" 0 "p" "t").1.rooms "h").map Room.ttl = some 3600000 ∧
    min (max (0 : Int) 60) MAX_ROOM_TTL * 1000 = 60000 ∧
    (3600000 : Int) ≠ 60000 := by
  refine ⟨by decide, by decide, by decide⟩

/-- C5 amended: the push create route clamps the requested ttl to
`min(max(ttl, 60), 86400)` seconds; the HTTP create route first replaces a
missing or zero (falsy) ttl by 3600 and then applies the same clamp, so its
lifetime is `min(max(ttl || 3600, 60), 86400)` seconds.  In particular
`ttl = 59` yields 60 and `ttl = 10^6` yields 86400 on both routes, but
`ttl = 0` on the HTTP route yields 3600, not 60. -/
theorem C5_ttl_clamp_amended :
    (∀ (s : RelayState) (ws : Nat) (ttl : Int) (rh ip : String) (now : Int)
      (pid tok : String),
      (checkRate s.rateLimits ip .creates now).1 = true →
      s.rooms.length < MAX_ROOMS → lookupA s.rooms rh = none →
      (lookupA (handleCreateRoom s ws ttl rh ip now pid tok).1.rooms rh).map
        Room.ttl = some (min (max ttl 60) MAX_ROOM_TTL * 1000)) ∧
    (∀ (s : RelayState) (rh : String) (tt : Option Int) (ip : String)
      (now : Int) (pid tok : String),
      (checkRate s.rateLimits ip .creates now).1 = true →
      s.rooms.length < MAX_ROOMS → rh ≠ "" → lookupA s.rooms rh = none →
      (lookupA (handleHttpCreateRoom s (some ⟨some rh, tt⟩) ip now
        pid tok).1.rooms rh).map Room.ttl =
        some (min (max (httpDefaultTtl tt) 60) MAX_ROOM_TTL * 1000)) := by
  constructor
  · intro s ws ttl rh ip now pid tok hrate hlen hdup
    have hcap : ¬ s.rooms.length ≥ MAX_ROOMS := not_le.mpr hlen
    simp [handleCreateRoom, hrate, hcap, hdup, lookupA_setA_self]
  · intro s rh tt ip now pid tok hrate hlen hrh hdup
    have hcap : ¬ s.rooms.length ≥ MAX_ROOMS := not_le.mpr hlen
    cases tt with
    | none =>
      simp [handleHttpCreateRoom, hrate, hcap, hrh, hdup, lookupA_setA_self,
        httpDefaultTtl]
    | some t =>
      by_cases ht : t = 0
      · simp [handleHttpCreateRoom, hrate, hcap, hrh, hdup, lookupA_setA_self,
          httpDefaultTtl, ht]
      · simp [handleHttpCreateRoom, hrate, hcap, hrh, hdup, lookupA_setA_self,
          httpDefaultTtl, ht]

/-- C5 witness: `ttl = 59` clamps to 60 s on the push route and
`ttl = 10^6` clamps to 86400 s on the HTTP route, starting from the fresh
relay state. -/
theorem C5_ttl_clamp_witness :
    (lookupA (handleCreateRoom initState 1 59 "h" "ip" 0 "p" "t").1.rooms
      "h").map Room.ttl = some 60000 ∧
    (lookupA (handleHttpCreateRoom initState (some ⟨some "h", some 1000000⟩)
      "ip" 0 "p" "t").1.rooms "h").map Room.ttl = some 86400000 := by
  constructor
  · have := C5_ttl_clamp_amended.1 initState 1 59 "h" "ip" 0 "p" "t"
      (by decide) (by decide) (by decide)
    rw [this]
    decide
  · have := C5_ttl_clamp_amended.2 initState "h" (some 1000000) "ip" 0 "p" "t"
      (by decide) (by decide) (by decide) (by decide)
    rw [this]
    decide

/-- C6 counterexample: in a room that keeps other members, the second
leave of poll peer `p` returns the codeless 404 body `Peer not found`, not
the error code `ROOM_ERROR` the claim requires; no `peer_left` is emitted
by the second leave. -/
theorem C6_double_leave_counterexample :
    (handleHttpLeaveRoom stateC6 "h" (some ⟨some "p"⟩)).2.1 =
      ⟨200, HttpBody.leftOk⟩ ∧
    (handleHttpLeaveRoom stateC6 "h" (some ⟨some "p"⟩)).2.2 =
      [Out.ws 9 (ServerEvent.peerLeft "h" "p" 2)] ∧
    (handleHttpLeaveRoom (handleHttpLeaveRoom stateC6 "h"
      (some ⟨some "p"⟩)).1 "h" (some ⟨some "p"⟩)).2.1 =
      ⟨404, HttpBody.errBody "Peer not found" none⟩ ∧
    (handleHttpLeaveRoom (handleHttpLeaveRoom stateC6 "h"
      (some ⟨some "p"⟩)).1 "h" (some ⟨some "p"⟩)).2.1 ≠
      ⟨404, HttpBody.errBody "Operation failed" (some "ROOM_ERROR")⟩ ∧
    (handleHttpLeaveRoom (handleHttpLeaveRoom stateC6 "h"
      (some ⟨some "p"⟩)).1 "h" (some ⟨some "p"⟩)).2.2 = [] := by
  refine ⟨by decide, by decide, by decide, by decide, by decide⟩

/-- C6 amended: after a successful poll leave (200 `left:true`), a second
leave with the same peer and hash emits no further `peer_left` and returns
404: with code `ROOM_ERROR` when the first leave destroyed the room (the
leaver was its last member), and the codeless body `Peer not found` when
the room survived. -/
theorem C6_double_leave_amended (s : RelayState) (h p : String) (r : Room)
    (hr : lookupA s.rooms h = some r)
    (hp : (lookupA r.httpPeers p).isSome = true) :
    (handleHttpLeaveRoom s h (some ⟨some p⟩)).2.1 = ⟨200, HttpBody.leftOk⟩ ∧
    (handleHttpLeaveRoom (handleHttpLeaveRoom s h (some ⟨some p⟩)).1 h
      (some ⟨some p⟩)).2.2 = [] ∧
    (r.peers = [] ∧ eraseA r.httpPeers p = [] →
      (handleHttpLeaveRoom (handleHttpLeaveRoom s h (some ⟨some p⟩)).1 h
        (some ⟨some p⟩)).2.1 =
        ⟨404, HttpBody.errBody "Operation failed" (some "ROOM_ERROR")⟩) ∧
    (¬(r.peers = [] ∧ eraseA r.httpPeers p = []) →
      (handleHttpLeaveRoom (handleHttpLeaveRoom s h (some ⟨some p⟩)).1 h
        (some ⟨some p⟩)).2.1 =
        ⟨404, HttpBody.errBody "Peer not found" none⟩) := by
  by_cases hdes : r.peers = [] ∧ eraseA r.httpPeers p = []
  · refine ⟨?_, ?_, fun _ => ?_, fun hc => absurd hdes hc⟩
    · simp [handleHttpLeaveRoom, hr, hp, hdes]
    · simp [handleHttpLeaveRoom, hr, hp, hdes, lookupA_eraseA_self]
    · simp [handleHttpLeaveRoom, hr, hp, hdes, lookupA_eraseA_self]
  · refine ⟨?_, ?_, fun hc => absurd hc hdes, fun _ => ?_⟩
    · simp [handleHttpLeaveRoom, hr, hp, hdes]
    · simp [handleHttpLeaveRoom, hr, hp, hdes, lookupA_setA_self,
        lookupA_eraseA_self]
    · simp [handleHttpLeaveRoom, hr, hp, hdes, lookupA_setA_self,
        lookupA_eraseA_self]

/-- C6 witness: the amended statement applied to the sample room that
keeps members after the first leave. -/
theorem C6_double_leave_witness :
    lookupA stateC6.rooms "h" = some roomC6 ∧
    (lookupA roomC6.httpPeers "p").isSome = true ∧
    (handleHttpLeaveRoom stateC6 "h" (some ⟨some "p"⟩)).2.1 =
      ⟨200, HttpBody.leftOk⟩ ∧
    (handleHttpLeaveRoom (handleHttpLeaveRoom stateC6 "h"
      (some ⟨some "p"⟩)).1 "h" (some ⟨some "p"⟩)).2.1 =
      ⟨404, HttpBody.errBody "Peer not found" none⟩ := by
  refine ⟨by decide, by decide, ?_, ?_⟩
  · exact (C6_double_leave_amended stateC6 "h" "p" roomC6 (by decide)
      (by decide)).1
  · exact (C6_double_leave_amended stateC6 "h" "p" roomC6 (by decide)
      (by decide)).2.2.2 (by decide)

/-- C3 counterexample: peer `p` holds push connection 7 in room `h`; when
it sends via `POST /rooms/h/send` with its own `peerId`, the accepted
message is fanned out to every push connection with no exclusion, so the
sender's own connection 7 receives an echo of its own message. -/
theorem C3_no_echo_counterexample :
    lookupA roomC3.peers "p" = some 7 ∧
    (handleHttpSendMessage stateC3 "h" (some ⟨some rawEcho, some "p"⟩)
      "ip" 0).2.1 = ⟨200, HttpBody.sent⟩ ∧
    Out.ws 7 (ServerEvent.message envEcho) ∈
      (handleHttpSendMessage stateC3 "h" (some ⟨some rawEcho, some "p"⟩)
        "ip" 0).2.2 := by
  refine ⟨by decide, by decide, by decide⟩

/-- C3 amended: on the push route the fan-out excludes the sender's own
connection (a push sender never receives an echo there) and the accepted
envelope is appended to the backlog; on the `POST /rooms/:hash/send` route
the fan-out goes to every push member of the room with no exclusion — so a
sender that also holds a push connection does receive an echo of its own
message — while the envelope is still appended to the backlog and thus
visible to pollers. -/
theorem C3_self_exclusion_amended :
    (∀ (s : RelayState) (ws : Nat) (raw : Option RawEnvelope) (ip : String)
      (now : Int) (env : Envelope),
      Out.ws ws (ServerEvent.message env) ∉ (handleMessage s ws raw ip now).2) ∧
    (∀ (s : RelayState) (ws : Nat) (raw : Option RawEnvelope) (ip : String)
      (now : Int) (env : Envelope) (r : Room) (pid : String),
      (checkRate s.rateLimits ip .messages now).1 = true →
      validateEnvelope raw = some env →
      lookupA s.rooms env.room = some r →
      findPeerOfWs r.peers ws = some pid →
      (lookupA (handleMessage s ws raw ip now).1.rooms env.room).map
        Room.messageBuffer = some (pushToBuffer r.messageBuffer env)) ∧
    (∀ (s : RelayState) (h : String) (b : SendBody) (ip : String) (now : Int)
      (env : Envelope) (r : Room) (p : String),
      (checkRate s.rateLimits ip .messages now).1 = true →
      validateEnvelope b.envelope = some env →
      lookupA s.rooms h = some r → b.peerId = some p →
      ((lookupA r.peers p).isSome = true ∨ (lookupA r.httpPeers p).isSome = true) →
      ∀ q ∈ r.peers, Out.ws q.2 (ServerEvent.message env) ∈
        (handleHttpSendMessage s h (some b) ip now).2.2) ∧
    (∀ (s : RelayState) (h : String) (b : SendBody) (ip : String) (now : Int)
      (env : Envelope) (r : Room) (p : String),
      (checkRate s.rateLimits ip .messages now).1 = true →
      validateEnvelope b.envelope = some env →
      lookupA s.rooms h = some r → b.peerId = some p →
      ((lookupA r.peers p).isSome = true ∨ (lookupA r.httpPeers p).isSome = true) →
      (lookupA (handleHttpSendMessage s h (some b) ip now).1.rooms h).map
        Room.messageBuffer = some (pushToBuffer r.messageBuffer env)) := by
  refine ⟨?_, ?_, ?_, ?_⟩
  · intro s ws raw ip now env hmem
    simp only [handleMessage] at hmem
    split at hmem
    · simp at hmem
    · split at hmem
      · simp at hmem
      · split at hmem
        · simp at hmem
        · split at hmem
          · simp at hmem
          · obtain ⟨q, _, hne, ho⟩ := mem_fanOut hmem
            injection ho with h1 h2
            exact hne (by rw [h1])
  · intro s ws raw ip now env r pid hrate hv hr hp
    simp [handleMessage, hrate, hv, hr, hp, lookupA_setA_self]
  · intro s h b ip now env r p hrate hv hr hp hmemb q hq
    by_cases hhp : (lookupA r.httpPeers p).isSome = true
    · simp only [handleHttpSendMessage, hrate, hv, hr, hp, hhp]
      simp only [Bool.not_true, Bool.and_false, Bool.false_eq_true, if_false]
      exact fanOut_mem_none hq
    · have hw : (lookupA r.peers p).isSome = true := by
        rcases hmemb with h1 | h1
        · exact h1
        · exact absurd h1 hhp
      simp only [handleHttpSendMessage, hrate, hv, hr, hp, hw]
      simp only [Bool.not_true, Bool.false_and, Bool.false_eq_true, if_false]
      have hhpf : (lookupA r.httpPeers p).isSome = false :=
        Bool.not_eq_true _ ▸ eq_false_of_ne_true hhp
      simp only [hhpf, Bool.false_eq_true, if_false]
      exact fanOut_mem_none hq
  · intro s h b ip now env r p hrate hv hr hp hmemb
    by_cases hhp : (lookupA r.httpPeers p).isSome = true
    · simp [handleHttpSendMessage, hrate, hv, hr, hp, hhp, lookupA_setA_self]
    · have hw : (lookupA r.peers p).isSome = true := by
        rcases hmemb with h1 | h1
        · exact h1
        · exact absurd h1 hhp
      simp [handleHttpSendMessage, hrate, hv, hr, hp, hw, hhp, lookupA_setA_self]

/-- C3 witness: on the sample room, the push sender gets no echo and its
envelope lands in the backlog, while the same envelope sent over HTTP by
the same peer is echoed to its own push connection and also lands in the
backlog. -/
theorem C3_self_exclusion_witness :
    Out.ws 7 (ServerEvent.message envEcho) ∉
      (handleMessage stateC3 7 (some rawEcho) "ip" 0).2 ∧
    (lookupA (handleMessage stateC3 7 (some rawEcho) "ip" 0).1.rooms
      "h").map Room.messageBuffer = some [envEcho] ∧
    Out.ws 7 (ServerEvent.message envEcho) ∈
      (handleHttpSendMessage stateC3 "h" (some ⟨some rawEcho, some "p"⟩)
        "ip" 0).2.2 ∧
    (lookupA (handleHttpSendMessage stateC3 "h"
      (some ⟨some rawEcho, some "p"⟩) "ip" 0).1.rooms "h").map
      Room.messageBuffer = some [envEcho] := by
  refine ⟨?_, ?_, ?_, ?_⟩
  · exact C3_self_exclusion_amended.1 stateC3 7 (some rawEcho) "ip" 0 envEcho
  · have hstep := C3_self_exclusion_amended.2.1 stateC3 7 (some rawEcho) "ip" 0
      envEcho roomC3 "p" (by decide) (by decide) (by decide) (by decide)
    exact hstep.trans (by decide)
  · exact C3_self_exclusion_amended.2.2.1 stateC3 "h" ⟨some rawEcho, some "p"⟩
      "ip" 0 envEcho roomC3 "p" (by decide) (by decide) (by decide) (by decide)
      (Or.inl (by decide)) ("p", 7) (by decide)
  · have hstep := C3_self_exclusion_amended.2.2.2 stateC3 "h"
      ⟨some rawEcho, some "p"⟩ "ip" 0 envEcho roomC3 "p" (by decide) (by decide)
      (by decide) (by decide) (Or.inl (by decide))
    exact hstep.trans (by decide)

/-- C9: on `POST /rooms/:hash/send` the relay checks only the envelope's
structure and the body `peerId`'s membership in the route room — the
hypotheses below constrain neither `envelope.from` against the sender's
peer identifier nor `envelope.room` against the route hash, yet acceptance
(status 200, append to the ROUTE room's backlog, fan-out) follows; and
concretely, poll peer `bob` sends an envelope whose `from` names `alice`
and whose `room` names `zz` on route `h`, and it is accepted, stored in
room `h`'s backlog, and fanned out to `alice`'s connection. -/
theorem C9_spoofable_envelope :
    (∀ (s : RelayState) (h : String) (b : SendBody) (ip : String) (now : Int)
      (env : Envelope) (r : Room) (p : String),
      (checkRate s.rateLimits ip .messages now).1 = true →
      validateEnvelope b.envelope = some env →
      lookupA s.rooms h = some r → b.peerId = some p →
      ((lookupA r.peers p).isSome = true ∨ (lookupA r.httpPeers p).isSome = true) →
      (handleHttpSendMessage s h (some b) ip now).2.1 = ⟨200, HttpBody.sent⟩ ∧
      (lookupA (handleHttpSendMessage s h (some b) ip now).1.rooms h).map
        Room.messageBuffer = some (pushToBuffer r.messageBuffer env)) ∧
    (envSpoof.room ≠ "h" ∧ envSpoof.from_ ≠ "bob" ∧
      (handleHttpSendMessage stateC9 "h" (some ⟨some rawSpoof, some "bob"⟩)
        "ip" 0).2.1 = ⟨200, HttpBody.sent⟩ ∧
      (lookupA (handleHttpSendMessage stateC9 "h"
        (some ⟨some rawSpoof, some "bob"⟩) "ip" 0).1.rooms "h").map
        Room.messageBuffer = some [envSpoof] ∧
      Out.ws 1 (ServerEvent.message envSpoof) ∈
        (handleHttpSendMessage stateC9 "h" (some ⟨some rawSpoof, some "bob"⟩)
          "ip" 0).2.2) := by
  constructor
  · intro s h b ip now env r p hrate hv hr hp hmemb
    by_cases hhp : (lookupA r.httpPeers p).isSome = true
    · constructor
      · simp [handleHttpSendMessage, hrate, hv, hr, hp, hhp]
      · simp [handleHttpSendMessage, hrate, hv, hr, hp, hhp, lookupA_setA_self]
    · have hw : (lookupA r.peers p).isSome = true := by
        rcases hmemb with h1 | h1
        · exact h1
        · exact absurd h1 hhp
      constructor
      · simp [handleHttpSendMessage, hrate, hv, hr, hp, hw, hhp]
      · simp [handleHttpSendMessage, hrate, hv, hr, hp, hw, hhp, lookupA_setA_self]
  · refine ⟨by decide, by decide, by decide, by decide, by decide⟩

/-- C9 witness: the general acceptance statement applied to the concrete
spoofed request of the second conjunct. -/
theorem C9_spoofable_envelope_witness :
    (handleHttpSendMessage stateC9 "h" (some ⟨some rawSpoof, some "bob"⟩)
      "ip" 0).2.1 = ⟨200, HttpBody.sent⟩ ∧
    (lookupA (handleHttpSendMessage stateC9 "h"
      (some ⟨some rawSpoof, some "bob"⟩) "ip" 0).1.rooms "h").map
      Room.messageBuffer = some (pushToBuffer roomC9.messageBuffer envSpoof) := by
  exact C9_spoofable_envelope.1 stateC9 "h" ⟨some rawSpoof, some "bob"⟩ "ip" 0
    envSpoof roomC9 "bob" (by decide) (by decide) (by decide) (by decide)
    (Or.inr (by decide))

theorem lookupA_eq_none_of_not_mem_keys {α β : Type} [DecidableEq α] :
    ∀ {l : List (α × β)} {k : α}, k ∉ l.map Prod.fst → lookupA l k = none := by
  intro l
  induction l with
  | nil => intro k _; rfl
  | cons q rest ih =>
    intro k hk
    obtain ⟨ka, va⟩ := q
    simp only [List.map_cons, List.mem_cons] at hk
    push_neg at hk
    simp only [lookupA, if_neg (fun hh : ka = k => hk.1 hh.symm)]
    exact ih hk.2

theorem cleanupRoomsLoop_lookup_none {now : Int} :
    ∀ {entries : List (String × Room)} {w2r : List (Nat × List String)}
      {h : String}, lookupA entries h = none →
      lookupA (cleanupRoomsLoop entries w2r now).1 h = none := by
  intro entries
  induction entries with
  | nil => intro w2r h _; rfl
  | cons q rest ih =>
    intro w2r h hl
    obtain ⟨h', r⟩ := q
    simp only [lookupA] at hl
    split at hl
    · exact absurd hl (by simp)
    · next hne =>
      simp only [cleanupRoomsLoop]
      split
      · exact ih hl
      · split
        · exact ih hl
        · simp only [lookupA, if_neg hne]
          exact ih hl

theorem cleanupRoomsLoop_expired_gone {now : Int} :
    ∀ {entries : List (String × Room)} {w2r : List (Nat × List String)}
      {h : String} {r : Room}, (entries.map Prod.fst).Nodup →
      lookupA entries h = some r → now - r.createdAt > r.ttl →
      lookupA (cleanupRoomsLoop entries w2r now).1 h = none := by
  intro entries
  induction entries with
  | nil => intro w2r h r _ hl _; simp [lookupA] at hl
  | cons q rest ih =>
    intro w2r h r hnd hl hexp
    obtain ⟨h', r'⟩ := q
    simp only [List.map_cons, List.nodup_cons] at hnd
    simp only [lookupA] at hl
    by_cases hne : h' = h
    · rw [if_pos hne] at hl
      injection hl with hl
      subst hne
      subst hl
      simp only [cleanupRoomsLoop, if_pos hexp]
      exact cleanupRoomsLoop_lookup_none
        (lookupA_eq_none_of_not_mem_keys hnd.1)
    · rw [if_neg hne] at hl
      simp only [cleanupRoomsLoop]
      split
      · exact ih hnd.2 hl hexp
      · split
        · exact ih hnd.2 hl hexp
        · simp only [lookupA, if_neg hne]
          exact ih hnd.2 hl hexp

/-- C4: probe symmetry.  First conjunct: a room whose ttl has elapsed is
absent from the registry after the Janitor sweep, exactly like a hash that
never existed.  Remaining conjuncts: on any state in which the hash is
absent — which covers both the never-created and the just-expired case —
the HTTP join, send, delete and leave routes and the push join, message
and delete frames each return the one fixed generic `ROOM_ERROR` reply
(and nothing else), so the two runs are bytewise identical. -/
theorem C4_probe_symmetry :
    (∀ (s : RelayState) (now : Int) (h : String) (r : Room),
      (s.rooms.map Prod.fst).Nodup → lookupA s.rooms h = some r →
      now - r.createdAt > r.ttl →
      lookupA (cleanupExpiredRooms s now).1.rooms h = none) ∧
    (∀ (s : RelayState) (h ip : String) (now : Int) (pid : String),
      lookupA s.rooms h = none →
      (checkRate s.rateLimits ip .joins now).1 = true →
      (handleHttpJoinRoom s h ip now pid).2.1 =
        ⟨404, HttpBody.errBody "Operation failed" (some "ROOM_ERROR")⟩ ∧
      (handleHttpJoinRoom s h ip now pid).2.2 = []) ∧
    (∀ (s : RelayState) (h : String) (b : SendBody) (ip : String) (now : Int)
      (env : Envelope), lookupA s.rooms h = none →
      (checkRate s.rateLimits ip .messages now).1 = true →
      validateEnvelope b.envelope = some env →
      (handleHttpSendMessage s h (some b) ip now).2.1 =
        ⟨404, HttpBody.errBody "Operation failed" (some "ROOM_ERROR")⟩ ∧
      (handleHttpSendMessage s h (some b) ip now).2.2 = []) ∧
    (∀ (s : RelayState) (h : String) (tok : Option String),
      lookupA s.rooms h = none →
      (handleHttpDeleteRoom s h tok).2.1 =
        ⟨404, HttpBody.errBody "Operation failed" (some "ROOM_ERROR")⟩ ∧
      (handleHttpDeleteRoom s h tok).2.2 = []) ∧
    (∀ (s : RelayState) (h : String) (p : Option String),
      lookupA s.rooms h = none →
      (handleHttpLeaveRoom s h (some ⟨p⟩)).2.1 =
        ⟨404, HttpBody.errBody "Operation failed" (some "ROOM_ERROR")⟩ ∧
      (handleHttpLeaveRoom s h (some ⟨p⟩)).2.2 = []) ∧
    (∀ (s : RelayState) (ws : Nat) (h ip : String) (now : Int) (pid : String),
      lookupA s.rooms h = none →
      (checkRate s.rateLimits ip .joins now).1 = true →
      (handleJoinRoom s ws h ip now pid).2 =
        [Out.ws ws (ServerEvent.error "Operation failed" "ROOM_ERROR" (some h))]) ∧
    (∀ (s : RelayState) (ws : Nat) (raw : Option RawEnvelope) (ip : String)
      (now : Int) (env : Envelope), lookupA s.rooms env.room = none →
      (checkRate s.rateLimits ip .messages now).1 = true →
      validateEnvelope raw = some env →
      (handleMessage s ws raw ip now).2 =
        [Out.ws ws (ServerEvent.error "Operation failed" "ROOM_ERROR" none)]) ∧
    (∀ (s : RelayState) (ws : Nat) (h : String) (tok : Option String),
      lookupA s.rooms h = none →
      (handleDeleteRoom s ws h tok).2 =
        [Out.ws ws (ServerEvent.error "Operation failed" "ROOM_ERROR" none)]) := by
  refine ⟨?_, ?_, ?_, ?_, ?_, ?_, ?_, ?_⟩
  · intro s now h r hnd hl hexp
    simp only [cleanupExpiredRooms]
    exact cleanupRoomsLoop_expired_gone hnd hl hexp
  · intro s h ip now pid hl hrate
    constructor
    · simp [handleHttpJoinRoom, hl, hrate]
    · simp [handleHttpJoinRoom, hl, hrate]
  · intro s h b ip now env hl hrate hv
    constructor
    · simp [handleHttpSendMessage, hl, hrate, hv]
    · simp [handleHttpSendMessage, hl, hrate, hv]
  · intro s h tok hl
    constructor
    · simp [handleHttpDeleteRoom, hl]
    · simp [handleHttpDeleteRoom, hl]
  · intro s h p hl
    constructor
    · simp [handleHttpLeaveRoom, hl]
    · simp [handleHttpLeaveRoom, hl]
  · intro s ws h ip now pid hl hrate
    simp [handleJoinRoom, hl, hrate]
  · intro s ws raw ip now env hl hrate hv
    simp [handleMessage, hl, hrate, hv]
  · intro s ws h tok hl
    simp [handleDeleteRoom, hl]

/-- C4 witness: the sample expired room is gone after the sweep at
`now = 2000`, and joining the swept hash and a never-created hash both
return the identical `ROOM_ERROR` reply. -/
theorem C4_probe_symmetry_witness :
    lookupA (cleanupExpiredRooms stateC4 2000).1.rooms "hx" = none ∧
    (handleHttpJoinRoom (cleanupExpiredRooms stateC4 2000).1 "hx" "ip" 2000
      "pid").2.1 =
      ⟨404, HttpBody.errBody "Operation failed" (some "ROOM_ERROR")⟩ ∧
    (handleHttpJoinRoom initState "never" "ip" 2000 "pid").2.1 =
      ⟨404, HttpBody.errBody "Operation failed" (some "ROOM_ERROR")⟩ := by
  refine ⟨?_, ?_, ?_⟩
  · exact C4_probe_symmetry.1 stateC4 2000 "hx" roomC4 (by decide) (by decide)
      (by decide)
  · exact (C4_probe_symmetry.2.1 (cleanupExpiredRooms stateC4 2000).1 "hx"
      "ip" 2000 "pid" (by decide) (by decide)).1
  · exact (C4_probe_symmetry.2.1 initState "never" "ip" 2000 "pid" (by decide)
      (by decide)).1

theorem sweepHttpPeers_buffer {hash : String} {now : Int} :
    ∀ {pending : List (String × Int)} {r : Room},
      (sweepHttpPeers r hash pending now).1.messageBuffer = r.messageBuffer := by
  intro pending
  induction pending with
  | nil => intro r; rfl
  | cons q rest ih =>
    intro r
    obtain ⟨p, last⟩ := q
    simp only [sweepHttpPeers]
    split
    · exact ih
    · exact ih

theorem cleanupRoomsLoop_buffers {now : Int} :
    ∀ {entries : List (String × Room)} {w2r : List (Nat × List String)}
      {p : String × Room}, p ∈ (cleanupRoomsLoop entries w2r now).1 →
      ∃ q ∈ entries, p.2.messageBuffer = q.2.messageBuffer := by
  intro entries
  induction entries with
  | nil => intro w2r p hp; simp [cleanupRoomsLoop] at hp
  | cons e rest ih =>
    intro w2r p hp
    obtain ⟨h, r⟩ := e
    simp only [cleanupRoomsLoop] at hp
    split at hp
    · obtain ⟨q, hq, hbuf⟩ := ih hp
      exact ⟨q, List.mem_cons_of_mem _ hq, hbuf⟩
    · split at hp
      · obtain ⟨q, hq, hbuf⟩ := ih hp
        exact ⟨q, List.mem_cons_of_mem _ hq, hbuf⟩
      · rcases List.mem_cons.mp hp with h1 | h2
        · refine ⟨(h, r), List.mem_cons_self _ _, ?_⟩
          rw [h1]
          exact sweepHttpPeers_buffer
        · obtain ⟨q, hq, hbuf⟩ := ih h2
          exact ⟨q, List.mem_cons_of_mem _ hq, hbuf⟩

theorem removeWsFromRoom_buffers {rooms : List (String × Room)} {h : String}
    {ws : Nat} {p : String × Room} (hp : p ∈ (removeWsFromRoom rooms h ws).1) :
    ∃ q ∈ rooms, p.2.messageBuffer = q.2.messageBuffer := by
  simp only [removeWsFromRoom] at hp
  split at hp
  · exact ⟨p, hp, rfl⟩
  · next room heq =>
    split at hp
    · exact ⟨p, hp, rfl⟩
    · split at hp
      · exact ⟨p, mem_eraseA hp, rfl⟩
      · rcases mem_setA hp with h1 | h1
        · exact ⟨p, h1, rfl⟩
        · refine ⟨(h, room), lookupA_mem heq, ?_⟩
          rw [h1]

theorem removePeerLoop_buffers {ws : Nat} :
    ∀ {hs : List String} {rooms : List (String × Room)} {p : String × Room},
      p ∈ (removePeerLoop rooms hs ws).1 →
      ∃ q ∈ rooms, p.2.messageBuffer = q.2.messageBuffer := by
  intro hs
  induction hs with
  | nil => intro rooms p hp; exact ⟨p, hp, rfl⟩
  | cons h rest ih =>
    intro rooms p hp
    simp only [removePeerLoop] at hp
    obtain ⟨q, hq, hbuf⟩ := ih hp
    obtain ⟨q', hq', hbuf'⟩ := removeWsFromRoom_buffers hq
    exact ⟨q', hq', hbuf.trans hbuf'⟩

theorem applyOp_backlog (s : RelayState) (op : Op) (hinv : BacklogBounded s) :
    BacklogBounded (applyOp s op).1 := by
  cases op with
  | wsCreate ws ttl rh ip now pid tok =>
    intro p hp
    simp only [applyOp, handleCreateRoom] at hp
    split at hp
    · exact hinv p hp
    · split at hp
      · exact hinv p hp
      · split at hp
        · exact hinv p hp
        · rcases mem_setA hp with h1 | h1
          · exact hinv p h1
          · rw [h1]
            simp [MESSAGE_BUFFER_SIZE]
  | wsJoin ws rh ip now pid =>
    intro p hp
    simp only [applyOp, handleJoinRoom] at hp
    split at hp
    · exact hinv p hp
    · split at hp
      · exact hinv p hp
      · next room heq =>
        split at hp
        · exact hinv p hp
        · rcases mem_setA hp with h1 | h1
          · exact hinv p h1
          · rw [h1]
            exact hinv (rh, room) (lookupA_mem heq)
  | wsLeave ws rh =>
    intro p hp
    simp only [applyOp, handleLeaveRoom] at hp
    split at hp
    · exact hinv p hp
    · next room heq =>
      split at hp
      · exact hinv p hp
      · split at hp
        · exact hinv p (mem_eraseA hp)
        · rcases mem_setA hp with h1 | h1
          · exact hinv p h1
          · rw [h1]
            exact hinv (rh, room) (lookupA_mem heq)
  | wsDelete ws rh tok =>
    intro p hp
    simp only [applyOp, handleDeleteRoom] at hp
    split at hp
    · exact hinv p hp
    · split at hp
      · exact hinv p (mem_eraseA hp)
      · exact hinv p hp
  | wsMessage ws raw ip now =>
    intro p hp
    simp only [applyOp, handleMessage] at hp
    split at hp
    · exact hinv p hp
    · split at hp
      · exact hinv p hp
      · next env heq2 =>
        split at hp
        · exact hinv p hp
        · next room heq =>
          split at hp
          · exact hinv p hp
          · rcases mem_setA hp with h1 | h1
            · exact hinv p h1
            · rw [h1]
              exact pushToBuffer_length (hinv (env.room, room) (lookupA_mem heq))
  | wsPing ws => exact hinv
  | wsBadFrame ws => exact hinv
  | wsClose ws =>
    intro p hp
    simp only [applyOp, removePeerFromAllRooms] at hp
    split at hp
    · exact hinv p hp
    · obtain ⟨q, hq, hbuf⟩ := removePeerLoop_buffers hp
      rw [hbuf]
      exact hinv q hq
  | httpCreate body ip now pid tok =>
    intro p hp
    simp only [applyOp, handleHttpCreateRoom] at hp
    split at hp
    · exact hinv p hp
    · split at hp
      · exact hinv p hp
      · split at hp
        · exact hinv p hp
        · split at hp
          · exact hinv p hp
          · split at hp
            · exact hinv p hp
            · split at hp
              · exact hinv p hp
              · rcases mem_setA hp with h1 | h1
                · exact hinv p h1
                · rw [h1]
                  simp [MESSAGE_BUFFER_SIZE]
  | httpJoin rh ip now pid =>
    intro p hp
    simp only [applyOp, handleHttpJoinRoom] at hp
    split at hp
    · exact hinv p hp
    · split at hp
      · exact hinv p hp
      · next room heq =>
        split at hp
        · exact hinv p hp
        · rcases mem_setA hp with h1 | h1
          · exact hinv p h1
          · rw [h1]
            exact hinv (rh, room) (lookupA_mem heq)
  | httpSend rh body ip now =>
    intro p hp
    simp only [applyOp, handleHttpSendMessage] at hp
    split at hp
    · exact hinv p hp
    · split at hp
      · exact hinv p hp
      · split at hp
        · exact hinv p hp
        · next env heq2 =>
          split at hp
          · exact hinv p hp
          · next room heq =>
            split at hp
            · exact hinv p hp
            · split at hp
              · exact hinv p hp
              · rcases mem_setA hp with h1 | h1
                · exact hinv p h1
                · rw [h1]
                  have hb := hinv (rh, room) (lookupA_mem heq)
                  split
                  · exact pushToBuffer_length hb
                  · exact pushToBuffer_length hb
  | httpPoll rh since pid now =>
    intro p hp
    simp only [applyOp, handleHttpPollMessages] at hp
    split at hp
    · exact hinv p hp
    · next room heq =>
      rcases mem_setA hp with h1 | h1
      · exact hinv p h1
      · rw [h1]
        have hb := hinv (rh, room) (lookupA_mem heq)
        cases pid with
        | none => exact hb
        | some q =>
          by_cases hc : q ≠ "" ∧ (lookupA room.httpPeers q).isSome
          · simp only [if_pos hc]
            exact hb
          · simp only [if_neg hc]
            exact hb
  | httpLeave rh body =>
    intro p hp
    simp only [applyOp, handleHttpLeaveRoom] at hp
    split at hp
    · exact hinv p hp
    · split at hp
      · exact hinv p hp
      · next room heq =>
        split at hp
        · exact hinv p hp
        · split at hp
          · split at hp
            · exact hinv p (mem_eraseA hp)
            · rcases mem_setA hp with h1 | h1
              · exact hinv p h1
              · rw [h1]
                exact hinv (rh, room) (lookupA_mem heq)
          · exact hinv p hp
  | httpDelete rh tok =>
    intro p hp
    simp only [applyOp, handleHttpDeleteRoom] at hp
    split at hp
    · exact hinv p hp
    · split at hp
      · exact hinv p (mem_eraseA hp)
      · exact hinv p hp
  | cleanup now =>
    intro p hp
    simp only [applyOp, cleanupExpiredRooms] at hp
    obtain ⟨q, hq, hbuf⟩ := cleanupRoomsLoop_buffers hp
    rw [hbuf]
    exact hinv q hq

theorem foldl_backlog :
    ∀ (ops : List Op) (s : RelayState), BacklogBounded s →
      BacklogBounded (ops.foldl (fun s op => (applyOp s op).1) s) := by
  intro ops
  induction ops with
  | nil => intro s h; exact h
  | cons op rest ih =>
    intro s h
    exact ih _ (applyOp_backlog s op h)

/-- C8: in every state reachable from the fresh relay by any sequence of
operations, every room's backlog holds at most 200 envelopes; and an
accepted append stores the envelope as received at the newest end,
evicting exactly the oldest entry when the append would exceed 200. -/
theorem C8_backlog_bound :
    (∀ ops : List Op, BacklogBounded (runOps ops)) ∧
    (∀ (buf : List Envelope) (e : Envelope),
      buf.length ≤ MESSAGE_BUFFER_SIZE →
      pushToBuffer buf e =
        if buf.length = MESSAGE_BUFFER_SIZE then buf.drop 1 ++ [e]
        else buf ++ [e]) := by
  constructor
  · intro ops
    exact foldl_backlog ops initState (by intro p hp; simp [initState] at hp)
  · intro buf e hlen
    simp only [pushToBuffer]
    by_cases hfull : buf.length = MESSAGE_BUFFER_SIZE
    · rw [if_pos hfull]
      rw [if_pos (by simp [List.length_append, hfull, MESSAGE_BUFFER_SIZE])]
      exact List.drop_append_of_le_length (by simp [hfull, MESSAGE_BUFFER_SIZE])
    · rw [if_neg hfull]
      rw [if_neg (by simp only [List.length_append, List.length_singleton,
        MESSAGE_BUFFER_SIZE] at *; omega)]

/-- C8 witness: the state reached by one create holds room `h1` with an
empty (bounded) backlog, and a below-capacity append keeps the envelope at
the newest end with no eviction. -/
theorem C8_backlog_bound_witness :
    ("h1", roomC8) ∈ (runOps opsC8).rooms ∧
    roomC8.messageBuffer.length ≤ MESSAGE_BUFFER_SIZE ∧
    ([env1, env2].length ≤ MESSAGE_BUFFER_SIZE) ∧
    pushToBuffer [env1, env2] env3 = [env1, env2, env3] := by
  refine ⟨by decide, ?_, by decide, ?_⟩
  · exact C8_backlog_bound.1 opsC8 ("h1", roomC8) (by decide)
  · have hstep := C8_backlog_bound.2 [env1, env2] env3 (by decide)
    rw [hstep]
    decide

theorem removeWsFromRoom_lookup_ne {rooms : List (String × Room)}
    {h h' : String} {ws : Nat} (hne : h' ≠ h) :
    lookupA (removeWsFromRoom rooms h ws).1 h' = lookupA rooms h' := by
  simp only [removeWsFromRoom]
  split
  · rfl
  · split
    · rfl
    · split
      · exact lookupA_eraseA_ne _ _ _ hne
      · exact lookupA_setA_ne _ _ _ _ hne

theorem removePeerLoop_lookup_not_mem {ws : Nat} :
    ∀ {hs : List String} {rooms : List (String × Room)} {h : String},
      h ∉ hs → lookupA (removePeerLoop rooms hs ws).1 h = lookupA rooms h := by
  intro hs
  induction hs with
  | nil => intro rooms h _; rfl
  | cons h0 rest ih =>
    intro rooms h hmem
    simp only [List.mem_cons] at hmem
    push_neg at hmem
    simp only [removePeerLoop]
    rw [ih hmem.2]
    exact removeWsFromRoom_lookup_ne hmem.1

theorem removePeerLoop_char {ws : Nat} :
    ∀ {hs : List String} {rooms : List (String × Room)} {h : String}
      {r : Room} {pid : String}, hs.Nodup → h ∈ hs →
      lookupA rooms h = some r → findPeerOfWs r.peers ws = some pid →
      (eraseA r.peers pid = [] ∧ r.httpPeers = [] →
        lookupA (removePeerLoop rooms hs ws).1 h = none) ∧
      (¬(eraseA r.peers pid = [] ∧ r.httpPeers = []) →
        lookupA (removePeerLoop rooms hs ws).1 h =
          some { r with peers := eraseA r.peers pid }) ∧
      (∀ q ∈ eraseA r.peers pid,
        Out.ws q.2 (ServerEvent.peerLeft h pid
          ((eraseA r.peers pid).length + r.httpPeers.length)) ∈
          (removePeerLoop rooms hs ws).2) := by
  intro hs
  induction hs with
  | nil => intro rooms h r pid _ hmem; simp at hmem
  | cons h0 rest ih =>
    intro rooms h r pid hnd hmem hr hp
    rw [List.nodup_cons] at hnd
    by_cases h0h : h0 = h
    · subst h0h
      have hrest : h0 ∉ rest := hnd.1
      refine ⟨?_, ?_, ?_⟩
      · intro hdes
        simp only [removePeerLoop, removeWsFromRoom, hr, hp]
        rw [if_pos hdes]
        rw [removePeerLoop_lookup_not_mem hrest]
        exact lookupA_eraseA_self _ _
      · intro hdes
        simp only [removePeerLoop, removeWsFromRoom, hr, hp]
        rw [if_neg hdes]
        rw [removePeerLoop_lookup_not_mem hrest]
        exact lookupA_setA_self _ _ _
      · intro q hq
        simp only [removePeerLoop, removeWsFromRoom, hr, hp]
        split
        · exact List.mem_append_left _ (broadcastTo_mem_none hq)
        · exact List.mem_append_left _ (broadcastTo_mem_none hq)
    · have hmem' : h ∈ rest := by
        rcases List.mem_cons.mp hmem with h1 | h1
        · exact absurd h1.symm h0h
        · exact h1
      have hr' : lookupA (removeWsFromRoom rooms h0 ws).1 h = some r := by
        rw [removeWsFromRoom_lookup_ne (fun hh => h0h hh.symm)]
        exact hr
      obtain ⟨ha, hb, hc⟩ := ih hnd.2 hmem' hr' hp
      refine ⟨?_, ?_, ?_⟩
      · intro hdes
        simp only [removePeerLoop]
        exact ha hdes
      · intro hdes
        simp only [removePeerLoop]
        exact hb hdes
      · intro q hq
        simp only [removePeerLoop]
        exact List.mem_append_right _ (hc q hq)

/-- C2 counterexample: connection 7 holds two peer identifiers `pA` and
`pB` in room `h` (it created the room, then joined it again).  Closing the
connection removes only the first matching entry `pA` — the `break` in
`removePeerFromAllRooms` stops the scan — so `pB` is left behind,
refuting "removes ... every peer identifier the connection holds in a
given room". -/
theorem C2_disconnect_counterexample :
    (lookupA stateC2.rooms "h").map Room.peers = some [("pA", 7), ("pB", 7)] ∧
    (lookupA (applyOp stateC2 (Op.wsClose 7)).1.rooms "h").map Room.peers =
      some [("pB", 7)] ∧
    lookupA (applyOp stateC2 (Op.wsClose 7)).1.wsToRooms 7 = none := by
  refine ⟨by decide, by decide, by decide⟩

/-- C2 amended: closing a push connection removes, from each room in its
tracked set, only the FIRST peer entry (in insertion order) whose
connection matches, emits `peer_left` for that entry to the remaining
members, destroys the room when both member sets become empty, and clears
the connection's tracking; further peer identifiers the connection holds
in the same room are not removed. -/
theorem C2_disconnect_amended (s : RelayState) (ws : Nat) (hs : List String)
    (h : String) (r : Room) (pid : String)
    (htrack : lookupA s.wsToRooms ws = some hs) (hnd : hs.Nodup)
    (hmem : h ∈ hs) (hr : lookupA s.rooms h = some r)
    (hp : findPeerOfWs r.peers ws = some pid) :
    lookupA (removePeerFromAllRooms s ws).1.wsToRooms ws = none ∧
    (eraseA r.peers pid = [] ∧ r.httpPeers = [] →
      lookupA (removePeerFromAllRooms s ws).1.rooms h = none) ∧
    (¬(eraseA r.peers pid = [] ∧ r.httpPeers = []) →
      lookupA (removePeerFromAllRooms s ws).1.rooms h =
        some { r with peers := eraseA r.peers pid }) ∧
    (∀ q ∈ eraseA r.peers pid,
      Out.ws q.2 (ServerEvent.peerLeft h pid
        ((eraseA r.peers pid).length + r.httpPeers.length)) ∈
        (removePeerFromAllRooms s ws).2) := by
  obtain ⟨ha, hb, hc⟩ := @removePeerLoop_char ws hs s.rooms h r pid
    hnd hmem hr hp
  refine ⟨?_, ?_, ?_, ?_⟩
  · simp only [removePeerFromAllRooms, htrack]
    exact lookupA_eraseA_self _ _
  · intro hdes
    simp only [removePeerFromAllRooms, htrack]
    exact ha hdes
  · intro hdes
    simp only [removePeerFromAllRooms, htrack]
    exact hb hdes
  · intro q hq
    simp only [removePeerFromAllRooms, htrack]
    exact hc q hq

/-- C2 witness: the amended statement applied to the reachable two-entry
state; the surviving entry is exactly `pB` and the `peer_left` for `pA`
reaches the remaining member. -/
theorem C2_disconnect_witness :
    lookupA (removePeerFromAllRooms stateC2 7).1.wsToRooms 7 = none ∧
    lookupA (removePeerFromAllRooms stateC2 7).1.rooms "h" =
      some ⟨"h", [("pB", 7)], [], [], "tA", 0, 120000⟩ ∧
    Out.ws 7 (ServerEvent.peerLeft "h" "pA" 1) ∈
      (removePeerFromAllRooms stateC2 7).2 := by
  have hmain := C2_disconnect_amended stateC2 7 ["h"] "h"
    ⟨"h", [("pA", 7), ("pB", 7)], [], [], "tA", 0, 120000⟩ "pA"
    (by decide) (by decide) (by decide) (by decide) (by decide)
  refine ⟨hmain.1, ?_, ?_⟩
  · have := hmain.2.2.1 (by decide)
    exact this.trans (by decide)
  · have := hmain.2.2.2 ("pB", 7) (by decide)
    exact this

/-- C1 counterexample: a push join addressed to a nonexistent room ends in
the error `ROOM_ERROR`, yet the relay state is mutated: the rate check ran
before the lookup and consumed one unit of the joins counter, so the rate
windows differ from the initial state. -/
theorem C1_error_purity_counterexample :
    (applyOp initState (Op.wsJoin 7 "h" "ip" 0 "p")).2 =
      [Out.ws 7 (ServerEvent.error "Operation failed" "ROOM_ERROR" (some "h"))] ∧
    (applyOp initState (Op.wsJoin 7 "h" "ip" 0 "p")).1 ≠ initState ∧
    (applyOp initState (Op.wsJoin 7 "h" "ip" 0 "p")).1.rateLimits ≠
      initState.rateLimits := by
  refine ⟨by decide, by decide, by decide⟩

/-- C1 amended: a request that ends in one of the eight wire-error codes
leaves the room registry (and with it every room's member sets and
backlog) and the per-connection room tracking unchanged, and the error is
the single output of the run, delivered to the originating caller only;
the rate windows are unchanged whenever the error is `RATE_LIMITED`
itself, but an error after an admitted rate check retains the consumed
counter unit, so the rate windows may differ. -/
theorem C1_error_purity_amended (s : RelayState) (op : Op)
    (herr : ∃ o ∈ (applyOp s op).2, isErrOut o = true) :
    (applyOp s op).1.rooms = s.rooms ∧
    (applyOp s op).1.wsToRooms = s.wsToRooms ∧
    ∃ o, (applyOp s op).2 = [o] ∧ isErrOut o = true ∧
      outToCaller (opCaller op) o = true ∧
      (errCodeOf o = some "RATE_LIMITED" →
        (applyOp s op).1.rateLimits = s.rateLimits) := by
  obtain ⟨o, ho, hoerr⟩ := herr
  cases op with
  | wsCreate ws ttl rh ip now pid tok =>
    cases hrate : (checkRate s.rateLimits ip RateAction.creates now).1 with
    | false =>
      refine ⟨by simp [applyOp, handleCreateRoom, hrate],
        by simp [applyOp, handleCreateRoom, hrate],
        Out.ws ws (ServerEvent.error "Rate limit exceeded" "RATE_LIMITED" (some rh)),
        by simp [applyOp, handleCreateRoom, hrate], by rfl,
        by simp [outToCaller, opCaller], ?_⟩
      intro _
      simp [applyOp, handleCreateRoom, hrate, checkRate_deny _ _ _ _ hrate]
    | true =>
      by_cases hcap : s.rooms.length ≥ MAX_ROOMS
      · refine ⟨by simp [applyOp, handleCreateRoom, hrate, hcap],
          by simp [applyOp, handleCreateRoom, hrate, hcap],
          Out.ws ws (ServerEvent.error "Service at capacity" "CAPACITY_EXCEEDED" (some rh)),
          by simp [applyOp, handleCreateRoom, hrate, hcap], by rfl,
          by simp [outToCaller, opCaller], ?_⟩
        intro hc
        simp [errCodeOf] at hc
      · cases hlook : lookupA s.rooms rh with
        | some room =>
          refine ⟨by simp [applyOp, handleCreateRoom, hrate, hcap, hlook],
            by simp [applyOp, handleCreateRoom, hrate, hcap, hlook],
            Out.ws ws (ServerEvent.error "Operation failed" "ROOM_ERROR" (some rh)),
            by simp [applyOp, handleCreateRoom, hrate, hcap, hlook], by rfl,
            by simp [outToCaller, opCaller], ?_⟩
          intro hc
          simp [errCodeOf] at hc
        | none =>
          exfalso
          simp [applyOp, handleCreateRoom, hrate, hcap, hlook] at ho
          subst ho
          simp [isErrOut, isErrEv] at hoerr
  | wsJoin ws rh ip now pid =>
    cases hrate : (checkRate s.rateLimits ip RateAction.joins now).1 with
    | false =>
      refine ⟨by simp [applyOp, handleJoinRoom, hrate],
        by simp [applyOp, handleJoinRoom, hrate],
        Out.ws ws (ServerEvent.error "Rate limit exceeded" "RATE_LIMITED" (some rh)),
        by simp [applyOp, handleJoinRoom, hrate], by rfl,
        by simp [outToCaller, opCaller], ?_⟩
      intro _
      simp [applyOp, handleJoinRoom, hrate, checkRate_deny _ _ _ _ hrate]
    | true =>
      cases hlook : lookupA s.rooms rh with
      | none =>
        refine ⟨by simp [applyOp, handleJoinRoom, hrate, hlook],
          by simp [applyOp, handleJoinRoom, hrate, hlook],
          Out.ws ws (ServerEvent.error "Operation failed" "ROOM_ERROR" (some rh)),
          by simp [applyOp, handleJoinRoom, hrate, hlook], by rfl,
          by simp [outToCaller, opCaller], ?_⟩
        intro hc
        simp [errCodeOf] at hc
      | some room =>
        by_cases hfull : totalPeerCount room ≥ MAX_PEERS_PER_ROOM
        · refine ⟨by simp [applyOp, handleJoinRoom, hrate, hlook, hfull],
            by simp [applyOp, handleJoinRoom, hrate, hlook, hfull],
            Out.ws ws (ServerEvent.error "Room is full" "ROOM_FULL" (some rh)),
            by simp [applyOp, handleJoinRoom, hrate, hlook, hfull], by rfl,
            by simp [outToCaller, opCaller], ?_⟩
          intro hc
          simp [errCodeOf] at hc
        · exfalso
          simp [applyOp, handleJoinRoom, hrate, hlook, hfull, broadcast] at ho
          rcases ho with ho | ho
          · subst ho
            simp [isErrOut, isErrEv] at hoerr
          · have hne := broadcastTo_not_err (by rfl) ho
            rw [hoerr] at hne
            simp at hne
  | wsLeave ws rh =>
    exfalso
    simp only [applyOp, handleLeaveRoom] at ho
    split at ho
    · simp at ho
    · split at ho
      · simp at ho
      · split at ho
        · have hne := broadcastTo_not_err (by rfl) ho
          rw [hoerr] at hne
          simp at hne
        · have hne := broadcastTo_not_err (by rfl) ho
          rw [hoerr] at hne
          simp at hne
  | wsDelete ws rh tok =>
    cases hlook : lookupA s.rooms rh with
    | none =>
      refine ⟨by simp [applyOp, handleDeleteRoom, hlook],
        by simp [applyOp, handleDeleteRoom, hlook],
        Out.ws ws (ServerEvent.error "Operation failed" "ROOM_ERROR" none),
        by simp [applyOp, handleDeleteRoom, hlook], by rfl,
        by simp [outToCaller, opCaller], ?_⟩
      intro hc
      simp [errCodeOf] at hc
    | some room =>
      cases htok : tokenMatches room.deleteToken tok with
      | true =>
        exfalso
        simp [applyOp, handleDeleteRoom, hlook, htok, broadcast] at ho
        have hne := broadcastTo_not_err (by rfl) ho
        rw [hoerr] at hne
        simp at hne
      | false =>
        refine ⟨by simp [applyOp, handleDeleteRoom, hlook, htok],
          by simp [applyOp, handleDeleteRoom, hlook, htok],
          Out.ws ws (ServerEvent.error "Invalid delete token" "INVALID_DELETE_TOKEN" none),
          by simp [applyOp, handleDeleteRoom, hlook, htok], by rfl,
          by simp [outToCaller, opCaller], ?_⟩
        intro hc
        simp [errCodeOf] at hc
  | wsMessage ws raw ip now =>
    cases hrate : (checkRate s.rateLimits ip RateAction.messages now).1 with
    | false =>
      refine ⟨by simp [applyOp, handleMessage, hrate],
        by simp [applyOp, handleMessage, hrate],
        Out.ws ws (ServerEvent.error "Rate limit exceeded" "RATE_LIMITED" none),
        by simp [applyOp, handleMessage, hrate], by rfl,
        by simp [outToCaller, opCaller], ?_⟩
      intro _
      simp [applyOp, handleMessage, hrate, checkRate_deny _ _ _ _ hrate]
    | true =>
      cases hval : validateEnvelope raw with
      | none =>
        refine ⟨by simp [applyOp, handleMessage, hrate, hval],
          by simp [applyOp, handleMessage, hrate, hval],
          Out.ws ws (ServerEvent.error "Invalid envelope" "INVALID_ENVELOPE" none),
          by simp [applyOp, handleMessage, hrate, hval], by rfl,
          by simp [outToCaller, opCaller], ?_⟩
        intro hc
        simp [errCodeOf] at hc
      | some env =>
        cases hlook : lookupA s.rooms env.room with
        | none =>
          refine ⟨by simp [applyOp, handleMessage, hrate, hval, hlook],
            by simp [applyOp, handleMessage, hrate, hval, hlook],
            Out.ws ws (ServerEvent.error "Operation failed" "ROOM_ERROR" none),
            by simp [applyOp, handleMessage, hrate, hval, hlook], by rfl,
            by simp [outToCaller, opCaller], ?_⟩
          intro hc
          simp [errCodeOf] at hc
        | some room =>
          cases hfind : findPeerOfWs room.peers ws with
          | none =>
            refine ⟨by simp [applyOp, handleMessage, hrate, hval, hlook, hfind],
              by simp [applyOp, handleMessage, hrate, hval, hlook, hfind],
              Out.ws ws (ServerEvent.error "Not in room" "NOT_IN_ROOM" none),
              by simp [applyOp, handleMessage, hrate, hval, hlook, hfind], by rfl,
              by simp [outToCaller, opCaller], ?_⟩
            intro hc
            simp [errCodeOf] at hc
          | some pid =>
            exfalso
            simp [applyOp, handleMessage, hrate, hval, hlook, hfind] at ho
            have hne := fanOut_not_err ho
            rw [hoerr] at hne
            simp at hne
  | wsPing ws =>
    exfalso
    simp [applyOp] at ho
    subst ho
    simp [isErrOut, isErrEv] at hoerr
  | wsBadFrame ws =>
    refine ⟨by simp [applyOp], by simp [applyOp],
      Out.ws ws (ServerEvent.error "Invalid message format" "INVALID_FORMAT" none),
      by simp [applyOp], by rfl, by simp [outToCaller, opCaller], ?_⟩
    intro hc
    simp [errCodeOf] at hc
  | wsClose ws =>
    exfalso
    simp only [applyOp, removePeerFromAllRooms] at ho
    split at ho
    · simp at ho
    · have hne := removePeerLoop_not_err ho
      rw [hoerr] at hne
      simp at hne
  | httpCreate body ip now pid tok =>
    cases hrate : (checkRate s.rateLimits ip RateAction.creates now).1 with
    | false =>
      refine ⟨by simp [applyOp, handleHttpCreateRoom, hrate],
        by simp [applyOp, handleHttpCreateRoom, hrate],
        Out.http ⟨429, HttpBody.errBody "Rate limit exceeded" (some "RATE_LIMITED")⟩,
        by simp [applyOp, handleHttpCreateRoom, hrate], by rfl, by rfl, ?_⟩
      intro _
      simp [applyOp, handleHttpCreateRoom, hrate, checkRate_deny _ _ _ _ hrate]
    | true =>
      by_cases hcap : s.rooms.length ≥ MAX_ROOMS
      · refine ⟨by simp [applyOp, handleHttpCreateRoom, hrate, hcap],
          by simp [applyOp, handleHttpCreateRoom, hrate, hcap],
          Out.http ⟨503, HttpBody.errBody "Service at capacity" (some "CAPACITY_EXCEEDED")⟩,
          by simp [applyOp, handleHttpCreateRoom, hrate, hcap], by rfl, by rfl, ?_⟩
        intro hc
        simp [errCodeOf] at hc
      · cases body with
        | none =>
          exfalso
          simp [applyOp, handleHttpCreateRoom, hrate, hcap] at ho
          subst ho
          simp [isErrOut] at hoerr
        | some b =>
          obtain ⟨brh, btl⟩ := b
          cases brh with
          | none =>
            exfalso
            simp [applyOp, handleHttpCreateRoom, hrate, hcap] at ho
            subst ho
            simp [isErrOut] at hoerr
          | some rh =>
            by_cases hrh : rh = ""
            · exfalso
              simp [applyOp, handleHttpCreateRoom, hrate, hcap, hrh] at ho
              subst ho
              simp [isErrOut] at hoerr
            · cases hlook : lookupA s.rooms rh with
              | some room =>
                refine ⟨by simp [applyOp, handleHttpCreateRoom, hrate, hcap, hrh, hlook],
                  by simp [applyOp, handleHttpCreateRoom, hrate, hcap, hrh, hlook],
                  Out.http ⟨409, HttpBody.errBody "Operation failed" (some "ROOM_ERROR")⟩,
                  by simp [applyOp, handleHttpCreateRoom, hrate, hcap, hrh, hlook],
                  by rfl, by rfl, ?_⟩
                intro hc
                simp [errCodeOf] at hc
              | none =>
                exfalso
                simp [applyOp, handleHttpCreateRoom, hrate, hcap, hrh, hlook] at ho
                subst ho
                simp [isErrOut] at hoerr
  | httpJoin rh ip now pid =>
    cases hrate : (checkRate s.rateLimits ip RateAction.joins now).1 with
    | false =>
      refine ⟨by simp [applyOp, handleHttpJoinRoom, hrate],
        by simp [applyOp, handleHttpJoinRoom, hrate],
        Out.http ⟨429, HttpBody.errBody "Rate limit exceeded" (some "RATE_LIMITED")⟩,
        by simp [applyOp, handleHttpJoinRoom, hrate], by rfl, by rfl, ?_⟩
      intro _
      simp [applyOp, handleHttpJoinRoom, hrate, checkRate_deny _ _ _ _ hrate]
    | true =>
      cases hlook : lookupA s.rooms rh with
      | none =>
        refine ⟨by simp [applyOp, handleHttpJoinRoom, hrate, hlook],
          by simp [applyOp, handleHttpJoinRoom, hrate, hlook],
          Out.http ⟨404, HttpBody.errBody "Operation failed" (some "ROOM_ERROR")⟩,
          by simp [applyOp, handleHttpJoinRoom, hrate, hlook], by rfl, by rfl, ?_⟩
        intro hc
        simp [errCodeOf] at hc
      | some room =>
        by_cases hfull : totalPeerCount room ≥ MAX_PEERS_PER_ROOM
        · refine ⟨by simp [applyOp, handleHttpJoinRoom, hrate, hlook, hfull],
            by simp [applyOp, handleHttpJoinRoom, hrate, hlook, hfull],
            Out.http ⟨403, HttpBody.errBody "Room is full" (some "ROOM_FULL")⟩,
            by simp [applyOp, handleHttpJoinRoom, hrate, hlook, hfull],
            by rfl, by rfl, ?_⟩
          intro hc
          simp [errCodeOf] at hc
        · exfalso
          simp [applyOp, handleHttpJoinRoom, hrate, hlook, hfull, broadcast] at ho
          rcases ho with ho | ho
          · have hne := broadcastTo_not_err (by rfl) ho
            rw [hoerr] at hne
            simp at hne
          · subst ho
            simp [isErrOut] at hoerr
  | httpSend rh body ip now =>
    cases hrate : (checkRate s.rateLimits ip RateAction.messages now).1 with
    | false =>
      refine ⟨by simp [applyOp, handleHttpSendMessage, hrate],
        by simp [applyOp, handleHttpSendMessage, hrate],
        Out.http ⟨429, HttpBody.errBody "Rate limit exceeded" (some "RATE_LIMITED")⟩,
        by simp [applyOp, handleHttpSendMessage, hrate], by rfl, by rfl, ?_⟩
      intro _
      simp [applyOp, handleHttpSendMessage, hrate, checkRate_deny _ _ _ _ hrate]
    | true =>
      cases body with
      | none =>
        exfalso
        simp [applyOp, handleHttpSendMessage, hrate] at ho
        subst ho
        simp [isErrOut] at hoerr
      | some b =>
        obtain ⟨benv, bpid⟩ := b
        cases hval : validateEnvelope benv with
        | none =>
          exfalso
          simp [applyOp, handleHttpSendMessage, hrate, hval] at ho
          subst ho
          simp [isErrOut] at hoerr
        | some env =>
          cases hlook : lookupA s.rooms rh with
          | none =>
            refine ⟨by simp [applyOp, handleHttpSendMessage, hrate, hval, hlook],
              by simp [applyOp, handleHttpSendMessage, hrate, hval, hlook],
              Out.http ⟨404, HttpBody.errBody "Operation failed" (some "ROOM_ERROR")⟩,
              by simp [applyOp, handleHttpSendMessage, hrate, hval, hlook],
              by rfl, by rfl, ?_⟩
            intro hc
            simp [errCodeOf] at hc
          | some room =>
            cases bpid with
            | none =>
              refine ⟨by simp [applyOp, handleHttpSendMessage, hrate, hval, hlook],
                by simp [applyOp, handleHttpSendMessage, hrate, hval, hlook],
                Out.http ⟨403, HttpBody.errBody "Not in room" (some "NOT_IN_ROOM")⟩,
                by simp [applyOp, handleHttpSendMessage, hrate, hval, hlook],
                by rfl, by rfl, ?_⟩
              intro hc
              simp [errCodeOf] at hc
            | some p =>
              cases hwp : (lookupA room.peers p).isSome with
              | false =>
                cases hhp : (lookupA room.httpPeers p).isSome with
                | false =>
                  refine ⟨by simp [applyOp, handleHttpSendMessage, hrate, hval,
                      hlook, hwp, hhp],
                    by simp [applyOp, handleHttpSendMessage, hrate, hval, hlook,
                      hwp, hhp],
                    Out.http ⟨403, HttpBody.errBody "Not in room" (some "NOT_IN_ROOM")⟩,
                    by simp [applyOp, handleHttpSendMessage, hrate, hval, hlook,
                      hwp, hhp],
                    by rfl, by rfl, ?_⟩
                  intro hc
                  simp [errCodeOf] at hc
                | true =>
                  exfalso
                  simp [applyOp, handleHttpSendMessage, hrate, hval, hlook, hwp,
                    hhp] at ho
                  rcases ho with ho | ho
                  · have hne := fanOut_not_err ho
                    rw [hoerr] at hne
                    simp at hne
                  · subst ho
                    simp [isErrOut] at hoerr
              | true =>
                exfalso
                simp [applyOp, handleHttpSendMessage, hrate, hval, hlook, hwp] at ho
                rcases ho with ho | ho
                · have hne := fanOut_not_err ho
                  rw [hoerr] at hne
                  simp at hne
                · subst ho
                  simp [isErrOut] at hoerr
  | httpPoll rh since pid now =>
    cases hlook : lookupA s.rooms rh with
    | none =>
      refine ⟨by simp [applyOp, handleHttpPollMessages, hlook],
        by simp [applyOp, handleHttpPollMessages, hlook],
        Out.http ⟨404, HttpBody.errBody "Operation failed" (some "ROOM_ERROR")⟩,
        by simp [applyOp, handleHttpPollMessages, hlook], by rfl, by rfl, ?_⟩
      intro hc
      simp [errCodeOf] at hc
    | some room =>
      exfalso
      simp [applyOp, handleHttpPollMessages, hlook] at ho
      subst ho
      simp [isErrOut] at hoerr
  | httpLeave rh body =>
    cases body with
    | none =>
      exfalso
      simp [applyOp, handleHttpLeaveRoom] at ho
      subst ho
      simp [isErrOut] at hoerr
    | some b =>
      obtain ⟨bpid⟩ := b
      cases hlook : lookupA s.rooms rh with
      | none =>
        refine ⟨by simp [applyOp, handleHttpLeaveRoom, hlook],
          by simp [applyOp, handleHttpLeaveRoom, hlook],
          Out.http ⟨404, HttpBody.errBody "Operation failed" (some "ROOM_ERROR")⟩,
          by simp [applyOp, handleHttpLeaveRoom, hlook], by rfl, by rfl, ?_⟩
        intro hc
        simp [errCodeOf] at hc
      | some room =>
        cases bpid with
        | none =>
          exfalso
          simp [applyOp, handleHttpLeaveRoom, hlook] at ho
          subst ho
          simp [isErrOut] at hoerr
        | some p =>
          cases hhp : (lookupA room.httpPeers p).isSome with
          | false =>
            exfalso
            simp [applyOp, handleHttpLeaveRoom, hlook, hhp] at ho
            subst ho
            simp [isErrOut] at hoerr
          | true =>
            exfalso
            by_cases hdes : room.peers = [] ∧ eraseA room.httpPeers p = []
            · simp [applyOp, handleHttpLeaveRoom, hlook, hhp, hdes, broadcast] at ho
              rcases ho with ho | ho
              · have hne := broadcastTo_not_err (by rfl) ho
                rw [hoerr] at hne
                simp at hne
              · subst ho
                simp [isErrOut] at hoerr
            · simp [applyOp, handleHttpLeaveRoom, hlook, hhp, hdes, broadcast] at ho
              rcases ho with ho | ho
              · have hne := broadcastTo_not_err (by rfl) ho
                rw [hoerr] at hne
                simp at hne
              · subst ho
                simp [isErrOut] at hoerr
  | httpDelete rh tok =>
    cases hlook : lookupA s.rooms rh with
    | none =>
      refine ⟨by simp [applyOp, handleHttpDeleteRoom, hlook],
        by simp [applyOp, handleHttpDeleteRoom, hlook],
        Out.http ⟨404, HttpBody.errBody "Operation failed" (some "ROOM_ERROR")⟩,
        by simp [applyOp, handleHttpDeleteRoom, hlook], by rfl, by rfl, ?_⟩
      intro hc
      simp [errCodeOf] at hc
    | some room =>
      cases htok : tokenMatches room.deleteToken tok with
      | true =>
        exfalso
        simp [applyOp, handleHttpDeleteRoom, hlook, htok, broadcast] at ho
        rcases ho with ho | ho
        · have hne := broadcastTo_not_err (by rfl) ho
          rw [hoerr] at hne
          simp at hne
        · subst ho
          simp [isErrOut] at hoerr
      | false =>
        refine ⟨by simp [applyOp, handleHttpDeleteRoom, hlook, htok],
          by simp [applyOp, handleHttpDeleteRoom, hlook, htok],
          Out.http ⟨403, HttpBody.errBody "Invalid delete token"
            (some "INVALID_DELETE_TOKEN")⟩,
          by simp [applyOp, handleHttpDeleteRoom, hlook, htok], by rfl, by rfl, ?_⟩
        intro hc
        simp [errCodeOf] at hc
  | cleanup now =>
    exfalso
    have hmem : o ∈ (cleanupRoomsLoop s.rooms s.wsToRooms now).2.2 := ho
    have hne := cleanupRoomsLoop_not_err hmem
    rw [hoerr] at hne
    simp at hne

/-- C1 witness: the amended statement applied to a push join for a
nonexistent room from the fresh state, whose run ends in `ROOM_ERROR`. -/
theorem C1_error_purity_witness :
    (applyOp initState (Op.wsJoin 7 "h" "ip" 0 "p")).1.rooms =
      initState.rooms ∧
    (applyOp initState (Op.wsJoin 7 "h" "ip" 0 "p")).1.wsToRooms =
      initState.wsToRooms ∧
    ∃ o, (applyOp initState (Op.wsJoin 7 "h" "ip" 0 "p")).2 = [o] ∧
      isErrOut o = true ∧
      outToCaller (opCaller (Op.wsJoin 7 "h" "ip" 0 "p")) o = true ∧
      (errCodeOf o = some "RATE_LIMITED" →
        (applyOp initState (Op.wsJoin 7 "h" "ip" 0 "p")).1.rateLimits =
          initState.rateLimits) :=
  C1_error_purity_amended initState (Op.wsJoin 7 "h" "ip" 0 "p")
    ⟨Out.ws 7 (ServerEvent.error "Operation failed" "ROOM_ERROR" (some "h")),
      by decide, by decide⟩
